import Mathlib

/-!
Volume lifecycle manager of docker-volume-gcs: a shallow embedding of
`plugin/driver/driver.go`.

* The registry `GCSDriver.volumes` (a Go map from names to volume pointers) is an
  association list with in-place update; every volume pointer is stored under exactly
  one key, so there is no aliasing to model.
* `count` is an unbounded integer in the operations, so that reference counts can be
  followed over traces of any length; `GCSDriver.CreateInt64` gives the increment of
  `Create` on the 64-bit Go int, with its wrap-around.
* Every call into the operating system (Lstat, TempFile, MkdirAll, Remove, process
  execution) takes its outcome as an argument and is recorded in a list of events, so
  the theorems quantify over arbitrary behaviour of the outside world.
* The mutex and the log lines are left out: operations are modelled one at a time.
* Errors are their message text; a nil error is `none`.
-/

namespace GCS

/-! ## Go standard library: path/filepath, strings, strconv -/

/-- Split a path at every slash, keeping empty elements. -/
def splitSlash : List Char → List (List Char)
  | [] => [[]]
  | c :: cs =>
    if c = '/' then [] :: splitSlash cs
    else
      match splitSlash cs with
      | [] => [[c]]
      | h :: t => (c :: h) :: t

/-- One element of the path-cleaning loop of Go's filepath.Clean; the stack holds the
elements written so far, last one first. -/
def cleanPush (rooted : Bool) (stack : List (List Char)) (el : List Char) : List (List Char) :=
  if el = [] ∨ el = ['.'] then stack
  else if el = ['.', '.'] then
    match stack with
    | [] => if rooted then [] else [el]
    | top :: rest => if top = ['.', '.'] then el :: stack else rest
  else el :: stack

/-- Join path elements with single slashes. -/
def joinSlash : List (List Char) → List Char
  | [] => []
  | [x] => x
  | x :: y :: r => x ++ '/' :: joinSlash (y :: r)

/-- Go's filepath.Clean on Unix, on character lists. -/
def cleanChars (p : List Char) : List Char :=
  let rooted := p.head? = some '/'
  let body := joinSlash ((splitSlash p).foldl (cleanPush rooted) []).reverse
  if rooted then '/' :: body else if body = [] then ['.'] else body

/-- Go's filepath.Clean. -/
def filepathClean (p : String) : String := String.mk (cleanChars p.data)

/-- Go's filepath.Join for two elements: empty elements are ignored, the rest is joined
with a slash and cleaned; all elements empty gives the empty string. -/
def filepathJoin (a b : String) : String :=
  if a ≠ "" then String.mk (cleanChars (a.data ++ '/' :: b.data))
  else if b ≠ "" then String.mk (cleanChars b.data)
  else ""

/-- The part of a path up to and including its last slash. -/
def dirPart (p : List Char) : List Char :=
  (p.reverse.dropWhile (fun c => c ≠ '/')).reverse

/-- Go's filepath.Dir on Unix. -/
def filepathDir (p : String) : String := String.mk (cleanChars (dirPart p.data))

/-- Go's unicode.IsSpace. -/
def isSpace (c : Char) : Bool :=
  let n := c.toNat
  (9 ≤ n && n ≤ 13) || n = 32 || n = 0x85 || n = 0xA0 || n = 0x1680
    || (0x2000 ≤ n && n ≤ 0x200a) || n = 0x2028 || n = 0x2029 || n = 0x202f
    || n = 0x205f || n = 0x3000

/-- The loop of strings.Fields: `cur` is the token being read, reversed. -/
def fieldsAux : List Char → List Char → List (List Char)
  | cur, [] => if cur = [] then [] else [cur.reverse]
  | cur, c :: cs =>
    if isSpace c then
      (if cur = [] then fieldsAux [] cs else cur.reverse :: fieldsAux [] cs)
    else fieldsAux (c :: cur) cs

/-- Go's strings.Fields. -/
def stringsFields (s : String) : List String :=
  (fieldsAux [] s.data).map String.mk

/-- Value of a run of decimal digits, none when a character is not a digit. -/
def parseDigits : List Char → Nat → Option Nat
  | [], acc => some acc
  | c :: cs, acc =>
    if 48 ≤ c.toNat ∧ c.toNat ≤ 57 then parseDigits cs (10 * acc + (c.toNat - 48))
    else none

/-- Go's strconv.Atoi on a 64-bit platform; none stands for a non-nil error. -/
def strconvAtoi (s : String) : Option Int :=
  match s.data with
  | [] => none
  | c :: cs =>
    let neg := decide (c = '-')
    let ds := if c = '-' ∨ c = '+' then cs else c :: cs
    if ds = [] then none
    else
      match parseDigits ds 0 with
      | none => none
      | some v =>
        let i : Int := if neg then -(v : Int) else (v : Int)
        if -(2 : Int) ^ 63 ≤ i ∧ i < (2 : Int) ^ 63 then some i else none

/-- The value a 64-bit Go int holds for the exact result `x` of an addition or a
multiplication: wrap-around in two's complement. -/
def wrapInt64 (x : Int) : Int := (x + 2 ^ 63) % 2 ^ 64 - 2 ^ 63

/-! ## Data model -/

def BucketMount : String := "/mnt/buckets"

def KeyMount : String := "/mnt/keys"

def KeyStorage : String := "/tmp/keys"

structure GCSVolume where
  bucket : String
  count : Int
  flags : List String
  keyFile : String
  mounted : Bool
  path : String
deriving DecidableEq, Repr

/-- The map `GCSDriver.volumes`. -/
abbrev Registry := List (String × GCSVolume)

/-- The value of `NewGCSDriver().volumes`. -/
def NewGCSDriver : Registry := []

/-- Map lookup `d.volumes[n]`. -/
def lookupVol : Registry → String → Option GCSVolume
  | [], _ => none
  | (k, v) :: rest, n => if k = n then some v else lookupVol rest n

/-- A write through the pointer stored under `n`. -/
def modifyVol (f : GCSVolume → GCSVolume) (n : String) : Registry → Registry
  | [] => []
  | (k, v) :: rest => if k = n then (k, f v) :: rest else (k, v) :: modifyVol f n rest

/-- Map assignment `d.volumes[n] = v`. -/
def insertVol (d : Registry) (n : String) (v : GCSVolume) : Registry :=
  if (lookupVol d n).isSome then modifyVol (fun _ => v) n d else d ++ [(n, v)]

/-- The builtin `delete(d.volumes, n)`. -/
def deleteVol (d : Registry) (n : String) : Registry :=
  d.filter (fun kv => kv.1 ≠ n)

/-- Go map options `r.Options`: the first entry of a key is the value of the key. -/
abbrev Options := List (String × String)

def optLookup : Options → String → Option String
  | [], _ => none
  | (k, v) :: rest, n => if k = n then some v else optLookup rest n

structure CreateRequest where
  Name : String
  Options : Options
deriving DecidableEq, Repr

/-! ## The outside world -/

/-- What an operation did outside the registry, in program order. -/
inductive Event
  | lstat (path : String)
  | tempFile (dir pat : String)
  | write (file content : String)
  | close (file : String)
  | mkdirAll (path : String)
  | removeFile (path : String)
  | run (args : List String) (ok : Bool)
  | start (args : List String) (ok : Bool)
  | kill
  | sleep (nanoseconds : Int)
  | readDir (path : String)
deriving DecidableEq, Repr

/-- Outcome of os.Lstat. -/
inductive LstatResult
  | notExist (err : String)
  | failed (err : String)
  | found (isDir : Bool)
deriving DecidableEq, Repr

/-- Outcome of `cmd.CombinedOutput()`: the error (none on exit status zero) and the
combined output. -/
structure ExecResult where
  err : Option String
  out : String
deriving DecidableEq, Repr

/-- Outcomes of the calls of `createKeyFile`: ioutil.TempFile gives the random part of
the new file name, or an error. -/
structure KeyFileEnv where
  tempFile : Except String String
  write : Option String
  close : Option String

/-- Outcomes of the calls of `debugVolume`. -/
structure DebugEnv where
  start : Option String
  lstat : LstatResult
  readDir : Except String Nat
  unmount : ExecResult
  output : String

/-- Outcomes of the calls of `Create`. -/
structure CreateEnv where
  keyLstat : LstatResult
  key : KeyFileEnv
  dirLstat : LstatResult
  mkdirAll : Option String
  debug : DebugEnv

/-- New registry, returned value and the events of one operation. -/
structure Outcome (α : Type) where
  volumes : Registry
  ret : α
  events : List Event

/-! ## Operations -/

/-- The package function `createKeyFile`. -/
def createKeyFile (s : String) (env : KeyFileEnv) : Except String String × List Event :=
  match env.tempFile with
  | .error e =>
    (.error ("error creating temporary key file: " ++ e), [Event.tempFile KeyStorage ""])
  | .ok rnd =>
    let keyFile := KeyStorage ++ "/" ++ rnd
    match env.write with
    | some e =>
      (.error ("error writing to temporary key file " ++ keyFile ++ ": " ++ e),
        [Event.tempFile KeyStorage "", Event.write keyFile s])
    | none =>
      match env.close with
      | some e =>
        (.error ("error closing temporary key file " ++ keyFile ++ ": " ++ e),
          [Event.tempFile KeyStorage "", Event.write keyFile s, Event.close keyFile])
      | none =>
        (.ok keyFile, [Event.tempFile KeyStorage "", Event.write keyFile s, Event.close keyFile])

/-- The package function `createDir`. -/
def createDir (d : String) (lstat : LstatResult) (mkdirAll : Option String) :
    Option String × List Event :=
  match lstat with
  | .notExist _ =>
    match mkdirAll with
    | some e => (some e, [Event.lstat d, Event.mkdirAll d])
    | none => (none, [Event.lstat d, Event.mkdirAll d])
  | .failed e => (some e, [Event.lstat d])
  | .found isDir =>
    if !isDir then (some (d ++ " already exists and is not a directory"), [Event.lstat d])
    else (none, [Event.lstat d])

/-- The argument vector of the unmount utility. -/
def unmountArgs (path : String) : List String := ["fusermount", "-u", path]

/-- The argument vector of the mount helper in `Mount`. -/
def mountArgs (v : GCSVolume) : List String := "gcsfuse" :: v.flags ++ [v.bucket, v.path]

/-- The argument vector of the mount helper in `debugVolume`. -/
def debugArgs (v : GCSVolume) : List String :=
  "gcsfuse" :: v.flags ++ ["--foreground", "--debug_fuse", "--debug_gcs", v.bucket, v.path]

/-- How fmt prints a slice of strings under the verb s. -/
def fmtSlice (xs : List String) : String := "[" ++ " ".intercalate xs ++ "]"

/-- The package function `debugVolume`: the report and the events. The deferred kill
and unmount run after the probes, on every path that got past `cmd.Start`. The pause is
the product of the timeout and time.Second in 64-bit arithmetic, in nanoseconds. -/
def debugVolume (v : GCSVolume) (timeout : Int) (env : DebugEnv) : String × List Event :=
  let head := "Command: " ++ fmtSlice (debugArgs v) ++ "\nKey file: " ++ v.keyFile ++ "\n"
  match env.start with
  | some e =>
    (head ++ "Error (" ++ e ++ ") mounting bucket\n", [Event.start (debugArgs v) false])
  | none =>
    let statLine :=
      match env.lstat with
      | .found isDir => "os.Lstat: success\nis dir: " ++ toString isDir ++ "\n"
      | .notExist e => "os.Lstat: " ++ e ++ "\n"
      | .failed e => "os.Lstat: " ++ e ++ "\n"
    let dirLine :=
      match env.readDir with
      | .error e => "ioutil.ReadDir: " ++ e ++ "\n"
      | .ok k => "ioutil.ReadDir entries: " ++ toString k ++ "\n"
    let umLine :=
      match env.unmount.err with
      | some e => "Error (" ++ e ++ ") un-mounting bucket: " ++ env.unmount.out ++ "\n"
      | none => ""
    (head ++ statLine ++ dirLine ++ umLine ++ "Mount output:\n" ++ env.output,
      [Event.start (debugArgs v) true, Event.sleep (wrapInt64 (timeout * 1000000000)),
        Event.lstat v.path,
        Event.readDir v.path, Event.kill,
        Event.run (unmountArgs v.path) env.unmount.err.isNone])

/-- The key file of a new volume (lines 65 to 83 of driver.go). -/
def resolveKey (r : CreateRequest) (env : CreateEnv) : Except String String × List Event :=
  match optLookup r.Options "key" with
  | some keyFile =>
    let keyPath := filepathJoin KeyMount keyFile
    match env.keyLstat with
    | .found _ => (.ok keyPath, [Event.lstat keyPath])
    | _ =>
      let res := createKeyFile keyFile env.key
      (res.1, Event.lstat keyPath :: res.2)
  | none => (.ok (filepathJoin KeyMount (r.Name ++ ".json")), [])

/-- The volume record a `Create` builds for an unregistered name (lines 58 to 64 and 85
to 105 of driver.go), from the request and the resolved key file. -/
def newVolume (r : CreateRequest) (keyFile : String) : GCSVolume :=
  { bucket :=
      (match optLookup r.Options "bucket" with
        | some b => b
        | none => r.Name),
    count := 1,
    flags :=
      ["--key-file=" ++ keyFile, "-o=allow_other"] ++
        (match optLookup r.Options "flags" with
          | some flags => stringsFields flags
          | none => []),
    keyFile := keyFile,
    mounted := false,
    path := filepathJoin BucketMount r.Name }

/-- The method `GCSDriver.Create`. -/
def GCSDriver.Create (d : Registry) (r : CreateRequest) (env : CreateEnv) :
    Outcome (Option String) :=
  match lookupVol d r.Name with
  | some _ => ⟨modifyVol (fun v => { v with count := v.count + 1 }) r.Name d, none, []⟩
  | none =>
    match resolveKey r env with
    | (.error e, ev) => ⟨d, some e, ev⟩
    | (.ok keyFile, ev) =>
      match createDir (filepathJoin BucketMount r.Name) env.dirLstat env.mkdirAll with
      | (some e, ev2) => ⟨d, some e, ev ++ ev2⟩
      | (none, ev2) =>
        let v := newVolume r keyFile
        let d1 := insertVol d r.Name v
        match optLookup r.Options "debug" with
        | some debug =>
          match strconvAtoi debug with
          | none => ⟨d1, some ("debug timeout (" ++ debug ++ ") is not an integer"), ev ++ ev2⟩
          | some timeout =>
            let es := debugVolume v timeout env.debug
            ⟨d1, some ("debug:\n" ++ es.1), ev ++ ev2 ++ es.2⟩
        | none => ⟨d1, none, ev ++ ev2⟩

/-- The method `GCSDriver.Create` with `count` as the 64-bit Go int it is: the increment
`v.count++` of the branch for a registered name wraps around. The branch for a name that
is not registered does no arithmetic on the count and is that of `GCSDriver.Create`. -/
def GCSDriver.CreateInt64 (d : Registry) (r : CreateRequest) (env : CreateEnv) :
    Outcome (Option String) :=
  match lookupVol d r.Name with
  | some _ =>
    ⟨modifyVol (fun v => { v with count := wrapInt64 (v.count + 1) }) r.Name d, none, []⟩
  | none => GCSDriver.Create d r env

/-- The method `GCSDriver.Get`: name and mount point of the volume. -/
def GCSDriver.Get (d : Registry) (n : String) : Outcome (Except String (String × String)) :=
  match lookupVol d n with
  | some v => ⟨d, .ok (n, v.path), []⟩
  | none => ⟨d, .error ("unknown volume " ++ n), []⟩

/-- The method `GCSDriver.Remove`; `rm` is the outcome of os.Remove, which is only
logged. -/
def GCSDriver.Remove (d : Registry) (n : String) (_rm : Option String) : Outcome (Option String) :=
  match lookupVol d n with
  | some v =>
    if v.count - 1 = 0 then
      if filepathDir v.keyFile = KeyStorage then
        ⟨deleteVol d n, none, [Event.removeFile v.keyFile]⟩
      else ⟨deleteVol d n, none, []⟩
    else ⟨modifyVol (fun v => { v with count := v.count - 1 }) n d, none, []⟩
  | none => ⟨d, none, []⟩

/-- The method `GCSDriver.Path`. -/
def GCSDriver.Path (d : Registry) (n : String) : Outcome (Except String String) :=
  match lookupVol d n with
  | some v => ⟨d, .ok v.path, []⟩
  | none => ⟨d, .error ("unknown volume " ++ n), []⟩

/-- The method `GCSDriver.Mount`; `ex` is the outcome of running the mount helper. -/
def GCSDriver.Mount (d : Registry) (n : String) (ex : ExecResult) : Outcome (Except String String) :=
  match lookupVol d n with
  | some v =>
    if !v.mounted then
      match ex.err with
      | some e =>
        ⟨d, .error ("error (" ++ e ++ ") mounting bucket " ++ v.bucket ++ ":\n" ++ ex.out),
          [Event.run (mountArgs v) false]⟩
      | none =>
        ⟨modifyVol (fun v => { v with mounted := true }) n d, .ok v.path,
          [Event.run (mountArgs v) true]⟩
    else ⟨d, .ok v.path, []⟩
  | none => ⟨d, .error ("unknown volume " ++ n), []⟩

/-- The method `GCSDriver.Unmount`; `ex` is the outcome of running the unmount
utility. -/
def GCSDriver.Unmount (d : Registry) (n : String) (ex : ExecResult) : Outcome (Option String) :=
  match lookupVol d n with
  | some v =>
    if v.count > 1 then ⟨d, some ("unknown volume " ++ n), []⟩
    else
      match ex.err with
      | some e =>
        ⟨d, some ("error (" ++ e ++ ") un-mounting bucket " ++ v.bucket ++ ":\n" ++ ex.out),
          [Event.run (unmountArgs v.path) false]⟩
      | none =>
        ⟨modifyVol (fun v => { v with mounted := false }) n d, some ("unknown volume " ++ n),
          [Event.run (unmountArgs v.path) true]⟩
  | none => ⟨d, some ("unknown volume " ++ n), []⟩

/-- The method `GCSDriver.Capabilities`: the scope. -/
def GCSDriver.Capabilities : String := "global"

/-- The method `GCSDriver.List`; the entries come in registry order (Go leaves the
order of a map iteration open). -/
def GCSDriver.List (d : Registry) : Outcome (Except String (List (String × String))) :=
  ⟨d, .ok (d.map (fun kv => (kv.1, kv.2.path))), []⟩

/-! ## Traces of calls -/

/-- One call of the plugin interface together with the outcomes of its external calls. -/
inductive Call
  | create (r : CreateRequest) (env : CreateEnv)
  | list
  | get (n : String)
  | remove (n : String) (rm : Option String)
  | path (n : String)
  | mount (n : String) (ex : ExecResult)
  | unmount (n : String) (ex : ExecResult)

/-- Registry and events after one call. -/
def step (d : Registry) : Call → Registry × List Event
  | .create r env => ((GCSDriver.Create d r env).volumes, (GCSDriver.Create d r env).events)
  | .list => ((GCSDriver.List d).volumes, (GCSDriver.List d).events)
  | .get n => ((GCSDriver.Get d n).volumes, (GCSDriver.Get d n).events)
  | .remove n rm => ((GCSDriver.Remove d n rm).volumes, (GCSDriver.Remove d n rm).events)
  | .path n => ((GCSDriver.Path d n).volumes, (GCSDriver.Path d n).events)
  | .mount n ex => ((GCSDriver.Mount d n ex).volumes, (GCSDriver.Mount d n ex).events)
  | .unmount n ex => ((GCSDriver.Unmount d n ex).volumes, (GCSDriver.Unmount d n ex).events)

/-- Registry after a sequence of calls. -/
def run (d : Registry) : List Call → Registry
  | [] => d
  | c :: cs => run (step d c).1 cs

/-- The calls of a sequence paired with the events each one produced. -/
def runLog (d : Registry) : List Call → List (Call × List Event)
  | [] => []
  | c :: cs => (c, (step d c).2) :: runLog (step d c).1 cs

/-! ## Reference counting over traces -/

/-- The stored count of a name, zero when the name is not registered. -/
def countOf (d : Registry) (n : String) : Int :=
  match lookupVol d n with
  | some v => v.count
  | none => 0

/-- Contribution of one call to the running reference count of `n`: plus one for a
Create of `n`, minus one for a Remove of `n` made while `n` is registered. -/
def countDelta (n : String) (d : Registry) : Call → Int
  | .create r _ => if r.Name = n then 1 else 0
  | .remove m _ => if m = n ∧ (lookupVol d n).isSome then -1 else 0
  | _ => 0

/-- The running reference count of `n` over a sequence of calls starting in `d`. -/
def runningCount (n : String) : Registry → List Call → Int
  | _, [] => 0
  | d, c :: cs => countDelta n d c + runningCount n (step d c).1 cs

/-- Whether one call is not a failing Create of `n`. -/
def createOk (n : String) (d : Registry) : Call → Bool
  | .create r env => decide (r.Name = n → (GCSDriver.Create d r env).ret = none)
  | _ => true

/-- Whether every Create of `n` in a sequence of calls starting in `d` returns no
error. -/
def createsSucceed (n : String) : Registry → List Call → Bool
  | _, [] => true
  | d, c :: cs => createOk n d c && createsSucceed n (step d c).1 cs

/-! ## Concrete outcomes used in examples -/

/-- A world in which every file-system call of `Create` succeeds: the key file exists
under the key mount and the mount directory exists. -/
def okEnv : CreateEnv :=
  { keyLstat := .found false,
    key := { tempFile := .ok "123", write := none, close := none },
    dirLstat := .found true,
    mkdirAll := none,
    debug := { start := none, lstat := .found true, readDir := .ok 0,
               unmount := { err := none, out := "" }, output := "" } }

/-- An external command that exits with status zero. -/
def okExec : ExecResult := { err := none, out := "" }

/-- An external command that exits with status one. -/
def failExec : ExecResult := { err := some "exit status 1", out := "boom" }

/-- Create twice, remove once, on the name a. -/
def demoCalls : List Call :=
  [.create ⟨"a", []⟩ okEnv, .create ⟨"a", [("bucket", "b")]⟩ okEnv, .remove "a" none]

/-- A registered, unmounted volume with one holder. -/
def demoVolume : GCSVolume :=
  { bucket := "a", count := 1, flags := ["--key-file=/mnt/keys/a.json", "-o=allow_other"],
    keyFile := "/mnt/keys/a.json", mounted := false, path := "/mnt/buckets/a" }

/-- The registry after a successful `Create` of the name a without options. -/
def demoRegistry : Registry := [("a", demoVolume)]

/-- The registry after a successful `Create` and a successful `Mount` of the name v. -/
def mountedRegistry : Registry :=
  (GCSDriver.Mount (GCSDriver.Create NewGCSDriver ⟨"v", []⟩ okEnv).volumes "v" okExec).volumes

/-- A request whose key names, through dot-dot segments, a file of the temporary key
storage. -/
def traversalRequest : CreateRequest := ⟨"b", [("key", "../../tmp/keys/k")]⟩

/-- Create, Mount with success, Remove, Create again, all on the name a. -/
def remountCalls : List Call :=
  [.create ⟨"a", []⟩ okEnv, .mount "a" okExec, .remove "a" none, .create ⟨"a", []⟩ okEnv]

/-- Create, Mount with a failing helper, Mount with success, Unmount with success, Mount
with success. -/
def cycleCalls : List Call :=
  [.create ⟨"a", []⟩ okEnv, .mount "a" failExec, .mount "a" okExec, .unmount "a" okExec,
    .mount "a" okExec]

/-- The request of the scenario: the name logs backed by the bucket acme-logs. -/
def logsRequest : CreateRequest := ⟨"logs", [("bucket", "acme-logs")]⟩

/-- Two holders of the volume of the name a. -/
def sharedRegistry : Registry := [("a", { demoVolume with count := 2, mounted := true })]

/-- A registry in which the count of the name a is the largest 64-bit integer. -/
def saturatedRegistry : Registry :=
  [("a", { demoVolume with count := 9223372036854775807 })]

/-! ## Observations on event lists -/

/-- Whether an event is an invocation of the mount helper. -/
def isHelperRun : Event → Bool
  | .run args _ => args.head? = some "gcsfuse"
  | .start args _ => args.head? = some "gcsfuse"
  | _ => false

/-- How many times the mount helper was invoked. -/
def helperRuns (evs : List Event) : Nat := (evs.filter isHelperRun).length

/-- The events of a sequence of calls starting in `d`, in order. -/
def traceEvents (d : Registry) : List Call → List Event
  | [] => []
  | c :: cs => (step d c).2 ++ traceEvents (step d c).1 cs

/-- Whether an event is a run of the mount helper that exited zero. -/
def isMountOk : Event → Bool
  | .run args true => args.head? = some "gcsfuse"
  | _ => false

/-- Whether an event is a run of the unmount utility that exited zero. -/
def isUnmountOk : Event → Bool
  | .run args true => args.head? = some "fusermount"
  | _ => false

/-- Whether, going by the events alone, the mount helper has been run with success for
`path` and no run of the unmount utility on `path` has succeeded since. -/
def hostMounted (path : String) (evs : List Event) : Bool :=
  evs.foldl
    (fun live e =>
      if isMountOk e && (match e with
          | .run args _ => decide (args.getLast? = some path)
          | _ => false) then true
      else if e = Event.run (unmountArgs path) true then false
      else live)
    false

/-- The mount state of the name `n` after one call, read off the call and its events: a
Create of `n` that touched the file system starts a new volume, a Mount of `n` whose
helper run exited zero mounts it, an Unmount of `n` whose utility run exited zero
unmounts it. -/
def liveStep (n : String) (live : Bool) (c : Call) (evs : List Event) : Bool :=
  match c with
  | .create r _ => if r.Name = n ∧ evs ≠ [] then false else live
  | .mount m _ => if m = n ∧ evs.any isMountOk then true else live
  | .unmount m _ => if m = n ∧ evs.any isUnmountOk then false else live
  | _ => live

/-- The mount state of `n` after a log of calls with their events. -/
def liveAfter (n : String) : Bool → List (Call × List Event) → Bool
  | live, [] => live
  | live, (c, evs) :: rest => liveAfter n (liveStep n live c evs) rest

/-! ## Tokens, substrings and further examples -/

/-- Split at every white-space character, keeping empty pieces. -/
def splitSpace : List Char → List (List Char)
  | [] => [[]]
  | c :: cs =>
    if isSpace c then [] :: splitSpace cs
    else
      match splitSpace cs with
      | [] => [[c]]
      | h :: t => (c :: h) :: t

/-- The maximal white-space-free tokens of a string in order, in the words of the
specification: the non-empty pieces that lie between white-space characters. -/
def tokensSpec (s : String) : List String :=
  ((splitSpace s.data).filter (fun t => t ≠ [])).map String.mk

/-- Whether the text `s` contains the text `t`. -/
def hasSubstr (s t : String) : Prop := t.data <:+: s.data

/-- Whether an event creates a directory. -/
def isMkdir : Event → Bool
  | .mkdirAll _ => true
  | _ => false

/-- Whether an event creates or writes a file. -/
def isFileCreation : Event → Bool
  | .tempFile _ _ => true
  | .write _ _ => true
  | _ => false

/-- A request with extra flags, a bucket and an inline key. -/
def flagsRequest : CreateRequest :=
  ⟨"data", [("bucket", "acme"), ("flags", "  --implicit-dirs \t --uid=7 "), ("key", "secret")]⟩

/-- A world in which the key is not a file under the key mount and the mount directory
does not exist yet; every call succeeds. -/
def inlineEnv : CreateEnv :=
  { okEnv with keyLstat := .notExist "no such file or directory",
               dirLstat := .notExist "no such file or directory" }

/-- A request that asks for a debug session of 5 seconds. -/
def debugRequest : CreateRequest := ⟨"dbg", [("debug", "5")]⟩

/-- A request whose debug value is not an integer. -/
def badDebugRequest : CreateRequest := ⟨"dbg", [("debug", "soon")]⟩

/-- Two registered volumes. -/
def twoRegistry : Registry :=
  [("a", demoVolume), ("b", { demoVolume with bucket := "b", path := "/mnt/buckets/b" })]

/-! ## Registry lemmas -/

theorem lookupVol_modifyVol (f : GCSVolume → GCSVolume) (n m : String) (d : Registry) :
    lookupVol (modifyVol f n d) m =
      if m = n then (lookupVol d n).map f else lookupVol d m := by
  induction d with
  | nil => simp [modifyVol, lookupVol]
  | cons kv rest ih =>
    obtain ⟨k, v⟩ := kv
    by_cases hk : k = n
    · by_cases hm : m = n
      · simp [modifyVol, lookupVol, hk, hm]
      · have hnm : ¬ n = m := fun h => hm h.symm
        simp [modifyVol, lookupVol, hk, hm, hnm]
    · by_cases hm : m = n
      · subst hm
        simp [modifyVol, lookupVol, hk, ih]
      · by_cases hkm : k = m
        · simp [modifyVol, lookupVol, hk, hm, hkm]
        · simp [modifyVol, lookupVol, hk, hm, hkm, ih]

theorem modifyVol_of_fix (f : GCSVolume → GCSVolume) (n : String) (d : Registry)
    (h : ∀ v, lookupVol d n = some v → f v = v) : modifyVol f n d = d := by
  induction d with
  | nil => rfl
  | cons kv rest ih =>
    obtain ⟨k, v⟩ := kv
    by_cases hk : k = n
    · have := h v (by simp [lookupVol, hk])
      simp [modifyVol, hk, this]
    · have h2 : ∀ w, lookupVol rest n = some w → f w = w := by
        intro w hw
        exact h w (by simp [lookupVol, hk, hw])
      simp [modifyVol, hk, ih h2]

theorem modifyVol_modifyVol (f g : GCSVolume → GCSVolume) (n : String) (d : Registry) :
    modifyVol g n (modifyVol f n d) = modifyVol (fun v => g (f v)) n d := by
  induction d with
  | nil => rfl
  | cons kv rest ih =>
    obtain ⟨k, v⟩ := kv
    by_cases hk : k = n
    · simp [modifyVol, hk]
    · simp [modifyVol, hk, ih]

theorem modifyVol_keys (f : GCSVolume → GCSVolume) (n : String) (d : Registry) :
    (modifyVol f n d).map Prod.fst = d.map Prod.fst := by
  induction d with
  | nil => rfl
  | cons kv rest ih =>
    obtain ⟨k, v⟩ := kv
    by_cases hk : k = n
    · simp [modifyVol, hk]
    · simp [modifyVol, hk, ih]

theorem lookupVol_append (d : Registry) (n m : String) (v : GCSVolume)
    (h : lookupVol d n = none) :
    lookupVol (d ++ [(n, v)]) m = if m = n then some v else lookupVol d m := by
  induction d with
  | nil =>
    by_cases hm : m = n
    · simp [lookupVol, hm]
    · have hnm : ¬ n = m := fun h => hm h.symm
      simp [lookupVol, hm, hnm]
  | cons kv rest ih =>
    obtain ⟨k, w⟩ := kv
    by_cases hk : k = n
    · simp [lookupVol, hk] at h
    · have h2 : lookupVol rest n = none := by simpa [lookupVol, hk] using h
      by_cases hkm : k = m
      · have hm : ¬ m = n := fun e => hk (hkm.trans e)
        simp [lookupVol, hkm, hm]
      · simp [lookupVol, hkm, ih h2]

theorem lookupVol_insertVol (d : Registry) (n m : String) (v : GCSVolume) :
    lookupVol (insertVol d n v) m = if m = n then some v else lookupVol d m := by
  unfold insertVol
  cases h : lookupVol d n with
  | none => simpa using lookupVol_append d n m v h
  | some w => simp [lookupVol_modifyVol, h]

theorem insertVol_of_absent (d : Registry) (n : String) (v : GCSVolume)
    (h : lookupVol d n = none) : insertVol d n v = d ++ [(n, v)] := by
  simp [insertVol, h]

theorem lookupVol_deleteVol (d : Registry) (n m : String) :
    lookupVol (deleteVol d n) m = if m = n then none else lookupVol d m := by
  induction d with
  | nil => simp [deleteVol, lookupVol]
  | cons kv rest ih =>
    obtain ⟨k, w⟩ := kv
    unfold deleteVol at ih ⊢
    simp only [ne_eq, decide_not] at ih ⊢
    by_cases hk : k = n
    · by_cases hm : m = n
      · subst hm
        simpa [List.filter, hk] using ih
      · have hnm : ¬ n = m := fun h => hm h.symm
        simp [List.filter, hk, ih, hm, lookupVol, hnm]
    · by_cases hm : m = n
      · subst hm
        simpa [List.filter, hk, lookupVol] using ih
      · by_cases hkm : k = m
        · simp [List.filter, hk, hm, lookupVol, hkm]
        · simp [List.filter, hk, ih, hm, lookupVol, hkm]

/-! ## What each operation does to the registry -/

theorem createDir_events_ne_nil (p : String) (l : LstatResult) (mk : Option String) :
    (createDir p l mk).2 ≠ [] := by
  unfold createDir
  cases l with
  | notExist e => cases mk <;> simp
  | failed e => simp
  | found isDir => cases isDir <;> simp

/-- The three ways a `Create` can end: re-attach, failure before registration, or
registration of a new volume at the end of the registry. -/
theorem Create_cases (d : Registry) (r : CreateRequest) (env : CreateEnv) :
    (∃ v, lookupVol d r.Name = some v ∧
        (GCSDriver.Create d r env).volumes =
          modifyVol (fun v => { v with count := v.count + 1 }) r.Name d ∧
        (GCSDriver.Create d r env).ret = none ∧ (GCSDriver.Create d r env).events = []) ∨
    (lookupVol d r.Name = none ∧ (GCSDriver.Create d r env).volumes = d ∧
        (GCSDriver.Create d r env).ret ≠ none) ∨
    (lookupVol d r.Name = none ∧ ∃ keyFile : String,
        (GCSDriver.Create d r env).volumes = d ++ [(r.Name, newVolume r keyFile)] ∧
        (GCSDriver.Create d r env).events ≠ [] ∧
        ((GCSDriver.Create d r env).ret = none ↔ optLookup r.Options "debug" = none)) := by
  cases h : lookupVol d r.Name with
  | some v =>
    left
    exact ⟨v, rfl, by simp [GCSDriver.Create, h], by simp [GCSDriver.Create, h],
      by simp [GCSDriver.Create, h]⟩
  | none =>
    right
    rcases hk : resolveKey r env with ⟨res, ev⟩
    cases res with
    | error e => left; simp [GCSDriver.Create, h, hk]
    | ok keyFile =>
      rcases hd : createDir (filepathJoin BucketMount r.Name) env.dirLstat env.mkdirAll
        with ⟨err, ev2⟩
      have hev2 : ev2 ≠ [] := by
        have := createDir_events_ne_nil (filepathJoin BucketMount r.Name) env.dirLstat
          env.mkdirAll
        rw [hd] at this
        exact this
      cases err with
      | some e => left; simp [GCSDriver.Create, h, hk, hd]
      | none =>
        right
        refine ⟨rfl, ?_⟩
        cases hdbg : optLookup r.Options "debug" with
        | none =>
          exact ⟨keyFile, by simp [GCSDriver.Create, h, hk, hd, hdbg, insertVol],
            by simp [GCSDriver.Create, h, hk, hd, hdbg, hev2],
            by simp [GCSDriver.Create, h, hk, hd, hdbg]⟩
        | some dbg =>
          cases ha : strconvAtoi dbg with
          | none =>
            exact ⟨keyFile,
              by simp [GCSDriver.Create, h, hk, hd, hdbg, ha, insertVol],
              by simp [GCSDriver.Create, h, hk, hd, hdbg, ha, hev2],
              by simp [GCSDriver.Create, h, hk, hd, hdbg, ha]⟩
          | some t =>
            exact ⟨keyFile,
              by simp [GCSDriver.Create, h, hk, hd, hdbg, ha, insertVol],
              by simp [GCSDriver.Create, h, hk, hd, hdbg, ha, hev2],
              by simp [GCSDriver.Create, h, hk, hd, hdbg, ha]⟩

theorem Get_volumes (d : Registry) (n : String) : (GCSDriver.Get d n).volumes = d := by
  unfold GCSDriver.Get; cases lookupVol d n <;> rfl

theorem Path_volumes (d : Registry) (n : String) : (GCSDriver.Path d n).volumes = d := by
  unfold GCSDriver.Path; cases lookupVol d n <;> rfl

theorem Remove_volumes (d : Registry) (n : String) (rm : Option String) :
    (GCSDriver.Remove d n rm).volumes =
      match lookupVol d n with
      | some v =>
        if v.count - 1 = 0 then deleteVol d n
        else modifyVol (fun v => { v with count := v.count - 1 }) n d
      | none => d := by
  unfold GCSDriver.Remove
  cases h : lookupVol d n with
  | none => rfl
  | some v =>
    by_cases hc : v.count - 1 = 0
    · by_cases hk : filepathDir v.keyFile = KeyStorage <;> simp [hc, hk]
    · simp [hc]

theorem Mount_volumes (d : Registry) (n : String) (ex : ExecResult) :
    (GCSDriver.Mount d n ex).volumes = d ∨
      (GCSDriver.Mount d n ex).volumes = modifyVol (fun v => { v with mounted := true }) n d := by
  unfold GCSDriver.Mount
  cases h : lookupVol d n with
  | none => left; rfl
  | some v =>
    cases hm : v.mounted with
    | true => left; simp [hm]
    | false =>
      cases he : ex.err with
      | none => right; simp [hm, he]
      | some e => left; simp [hm, he]

theorem Unmount_volumes (d : Registry) (n : String) (ex : ExecResult) :
    (GCSDriver.Unmount d n ex).volumes = d ∨
      (GCSDriver.Unmount d n ex).volumes =
        modifyVol (fun v => { v with mounted := false }) n d := by
  unfold GCSDriver.Unmount
  cases h : lookupVol d n with
  | none => left; rfl
  | some v =>
    by_cases hc : v.count > 1
    · left; simp [hc]
    · cases he : ex.err with
      | none => right; simp [hc, he]
      | some e => left; simp [hc, he]

/-- How one call changes the entry of a name: an entry present afterwards either was
there before with the same path and a count changed by at most one (never down to
zero), or is a new one with count 1, not mounted, at the path derived from the name. -/
theorem step_lookup (d : Registry) (c : Call) (m : String) (w : GCSVolume)
    (h : lookupVol (step d c).1 m = some w) :
    (∃ v, lookupVol d m = some v ∧ w.path = v.path ∧
        (w.count = v.count ∨ w.count = v.count + 1 ∨
          (w.count = v.count - 1 ∧ v.count - 1 ≠ 0))) ∨
    (lookupVol d m = none ∧ w.count = 1 ∧ w.mounted = false ∧
        w.path = filepathJoin BucketMount m) := by
  have same : ∀ v, lookupVol d m = some v → w = v →
      (∃ v, lookupVol d m = some v ∧ w.path = v.path ∧
        (w.count = v.count ∨ w.count = v.count + 1 ∨
          (w.count = v.count - 1 ∧ v.count - 1 ≠ 0))) ∨
      (lookupVol d m = none ∧ w.count = 1 ∧ w.mounted = false ∧
        w.path = filepathJoin BucketMount m) := by
    intro v hv hw
    exact Or.inl ⟨v, hv, by rw [hw], Or.inl (by rw [hw])⟩
  cases c with
  | list => exact same w h rfl
  | get n =>
    simp only [step, Get_volumes] at h; exact same w h rfl
  | path n =>
    simp only [step, Path_volumes] at h; exact same w h rfl
  | mount n ex =>
    rcases Mount_volumes d n ex with e | e
    · simp only [step, e] at h; exact same w h rfl
    · simp only [step, e, lookupVol_modifyVol] at h
      by_cases hm : m = n
      · subst hm
        cases hv : lookupVol d m with
        | none => simp [hv] at h
        | some v =>
          simp [hv] at h
          exact Or.inl ⟨v, rfl, by rw [← h], Or.inl (by rw [← h])⟩
      · simp only [hm, if_false] at h; exact same w h rfl
  | unmount n ex =>
    rcases Unmount_volumes d n ex with e | e
    · simp only [step, e] at h; exact same w h rfl
    · simp only [step, e, lookupVol_modifyVol] at h
      by_cases hm : m = n
      · subst hm
        cases hv : lookupVol d m with
        | none => simp [hv] at h
        | some v =>
          simp [hv] at h
          exact Or.inl ⟨v, rfl, by rw [← h], Or.inl (by rw [← h])⟩
      · simp only [hm, if_false] at h; exact same w h rfl
  | remove n rm =>
    simp only [step, Remove_volumes] at h
    cases hv : lookupVol d n with
    | none => simp only [hv] at h; exact same w h rfl
    | some v =>
      simp only [hv] at h
      by_cases hc : v.count - 1 = 0
      · simp only [hc, if_true, lookupVol_deleteVol] at h
        by_cases hm : m = n
        · simp [hm] at h
        · simp only [hm, if_false] at h; exact same w h rfl
      · simp only [hc, if_false, lookupVol_modifyVol] at h
        by_cases hm : m = n
        · subst hm
          simp [hv] at h
          exact Or.inl ⟨v, hv, by rw [← h], Or.inr (Or.inr ⟨by rw [← h], hc⟩)⟩
        · simp only [hm, if_false] at h; exact same w h rfl
  | create r env =>
    rcases Create_cases d r env with ⟨v, hv, e, _, _⟩ | ⟨_, e, _⟩ | ⟨hn, kf, e, _, _⟩
    · simp only [step, e, lookupVol_modifyVol] at h
      by_cases hm : m = r.Name
      · subst hm
        simp [hv] at h
        exact Or.inl ⟨v, hv, by rw [← h], Or.inr (Or.inl (by rw [← h]))⟩
      · simp only [hm, if_false] at h; exact same w h rfl
    · simp only [step, e] at h; exact same w h rfl
    · simp only [step, e, lookupVol_append d r.Name m _ hn] at h
      by_cases hm : m = r.Name
      · subst hm
        simp at h
        exact Or.inr ⟨hn, by rw [← h]; rfl, by rw [← h]; rfl, by rw [← h]; rfl⟩
      · simp only [hm, if_false] at h; exact same w h rfl

/-! ## Reference counting -/

theorem run_count_pos (calls : List Call) :
    ∀ d : Registry, (∀ m v, lookupVol d m = some v → 1 ≤ v.count) →
      ∀ m v, lookupVol (run d calls) m = some v → 1 ≤ v.count := by
  induction calls with
  | nil => intro d hd m v h; exact hd m v h
  | cons c cs ih =>
    intro d hd
    apply ih (step d c).1
    intro m w hw
    rcases step_lookup d c m w hw with ⟨v, hv, _, hc⟩ | ⟨_, hc, _, _⟩
    · have := hd m v hv
      omega
    · omega

theorem countOf_step (n : String) (d : Registry) (c : Call)
    (hc : createOk n d c = true) :
    countOf (step d c).1 n = countOf d n + countDelta n d c := by
  have keep : ∀ f : GCSVolume → GCSVolume, (∀ v, (f v).count = v.count) →
      countOf (modifyVol f n d) n = countOf d n := by
    intro f hf
    unfold countOf
    rw [lookupVol_modifyVol]
    cases lookupVol d n <;> simp [hf]
  cases c with
  | list => simp [step, GCSDriver.List, countDelta]
  | get m => simp [step, Get_volumes, countDelta]
  | path m => simp [step, Path_volumes, countDelta]
  | mount m ex =>
    rcases Mount_volumes d m ex with e | e
    · simp [step, e, countDelta]
    · simp only [step, e, countDelta, add_zero]
      unfold countOf
      rw [lookupVol_modifyVol]
      by_cases hm : n = m
      · subst hm; cases lookupVol d n <;> simp
      · simp [hm]
  | unmount m ex =>
    rcases Unmount_volumes d m ex with e | e
    · simp [step, e, countDelta]
    · simp only [step, e, countDelta, add_zero]
      unfold countOf
      rw [lookupVol_modifyVol]
      by_cases hm : n = m
      · subst hm; cases lookupVol d n <;> simp
      · simp [hm]
  | remove m rm =>
    simp only [step, Remove_volumes, countDelta]
    by_cases hm : m = n
    · subst hm
      unfold countOf
      cases hv : lookupVol d m with
      | none => simp [hv]
      | some v =>
        by_cases h0 : v.count - 1 = 0
        · simp [h0, lookupVol_deleteVol]
          omega
        · simp [h0, lookupVol_modifyVol, hv]
          omega
    · have hnm : ¬ n = m := fun h => hm h.symm
      unfold countOf
      cases hv : lookupVol d m with
      | none => simp [hm]
      | some v =>
        by_cases h0 : v.count - 1 = 0
        · simp [h0, lookupVol_deleteVol, hm, hnm]
        · simp [h0, lookupVol_modifyVol, hm, hnm]
  | create r env =>
    simp only [createOk, decide_eq_true_eq] at hc
    simp only [step, countDelta]
    by_cases hm : r.Name = n
    · have hret := hc hm
      rcases Create_cases d r env with ⟨v, hv, e, _, _⟩ | ⟨_, _, e⟩ | ⟨hn, kf, e, _, _⟩
      · subst hm
        simp [countOf, e, lookupVol_modifyVol, hv]
      · exact absurd hret e
      · subst hm
        simp [countOf, e, lookupVol_append d r.Name r.Name _ hn, hn, newVolume]
    · have hnm : ¬ n = r.Name := fun h => hm h.symm
      rcases Create_cases d r env with ⟨v, hv, e, _, _⟩ | ⟨_, e, _⟩ | ⟨hn, kf, e, _, _⟩
      · simp [countOf, e, lookupVol_modifyVol, hm, hnm]
      · simp [e, hm]
      · simp [countOf, e, lookupVol_append d r.Name n _ hn, hm, hnm]

theorem countOf_run (n : String) (calls : List Call) :
    ∀ d : Registry, createsSucceed n d calls = true →
      countOf (run d calls) n = countOf d n + runningCount n d calls := by
  induction calls with
  | nil => intro d _; simp [run, runningCount]
  | cons c cs ih =>
    intro d h
    simp only [createsSucceed, Bool.and_eq_true] at h
    simp only [run, runningCount]
    rw [ih (step d c).1 h.2, countOf_step n d c h.1]
    ring

/-- C1. Reference-count invariant: after every finite sequence of calls from the empty
registry, with arbitrary outcomes of the external calls, every registered volume has
count at least 1; and when every Create of a name `n` in the sequence returns no error,
`n` is registered at the end iff its running reference count (plus 1 per Create, minus 1
per Remove made while registered) is at least 1, and the stored count equals that
running count. -/
theorem refcount_invariant (calls : List Call) :
    (∀ m v, lookupVol (run NewGCSDriver calls) m = some v → 1 ≤ v.count) ∧
    (∀ n, createsSucceed n NewGCSDriver calls = true →
      ((lookupVol (run NewGCSDriver calls) n).isSome ↔
          1 ≤ runningCount n NewGCSDriver calls) ∧
      (∀ v, lookupVol (run NewGCSDriver calls) n = some v →
          v.count = runningCount n NewGCSDriver calls)) := by
  have pos := run_count_pos calls NewGCSDriver (by intro m v h; simp [NewGCSDriver, lookupVol] at h)
  refine ⟨pos, ?_⟩
  intro n hn
  have hc := countOf_run n calls NewGCSDriver hn
  have h0 : countOf NewGCSDriver n = 0 := rfl
  rw [h0, zero_add] at hc
  unfold countOf at hc
  constructor
  · cases hv : lookupVol (run NewGCSDriver calls) n with
    | none => simp only [hv] at hc; simp; omega
    | some v =>
      simp only [hv] at hc
      have := pos n v hv
      simp
      omega
  · intro v hv
    simp only [hv] at hc
    exact hc

/-- C1 at a concrete trace: two Creates and one Remove of the name a. -/
theorem refcount_invariant_witness :
    createsSucceed "a" NewGCSDriver demoCalls = true ∧
    (((lookupVol (run NewGCSDriver demoCalls) "a").isSome ↔
        1 ≤ runningCount "a" NewGCSDriver demoCalls) ∧
      (∀ v, lookupVol (run NewGCSDriver demoCalls) "a" = some v →
        v.count = runningCount "a" NewGCSDriver demoCalls)) :=
  ⟨by decide, (refcount_invariant demoCalls).2 "a" (by decide)⟩

/-! ## Create on a registered name -/

theorem wrapInt64_of_range (x : Int) (h1 : -(2 : Int) ^ 63 ≤ x) (h2 : x < (2 : Int) ^ 63) :
    wrapInt64 x = x := by
  unfold wrapInt64
  norm_num at h1 h2 ⊢
  omega

/-- C2 fails as stated: in a registry where the name a is registered with the count
9223372036854775807, the largest value of a 64-bit Go int, a `Create` of a returns no
error and leaves the count at -9223372036854775808, not at the old count plus one. -/
theorem reattach_wraps_at_max_count :
    (lookupVol saturatedRegistry "a").map (fun v => v.count) = some 9223372036854775807 ∧
    (GCSDriver.CreateInt64 saturatedRegistry ⟨"a", []⟩ okEnv).ret = none ∧
    (lookupVol (GCSDriver.CreateInt64 saturatedRegistry ⟨"a", []⟩ okEnv).volumes "a").map
      (fun v => v.count) = some (-9223372036854775808) ∧
    (lookupVol (GCSDriver.CreateInt64 saturatedRegistry ⟨"a", []⟩ okEnv).volumes "a").map
      (fun v => v.count) ≠ some (9223372036854775807 + 1) := by
  refine ⟨by decide, by decide, by decide, by decide⟩

/-- C2 as amended. Idempotent re-attach on the 64-bit count: a `Create` of a registered
name, whatever its options, returns no error, leaves the other fields of the volume, all
other entries and the set of names unchanged, and performs no external call; the count
becomes the old count plus one in 64-bit arithmetic, which is the old count plus one
whenever the old count is a 64-bit value below the maximum 2^63 - 1, and -2^63 at that
maximum. Two Creates of a fresh name, the first returning no error, leave the count
at 2. -/
theorem create_reattach_int64 :
    (∀ (d : Registry) (n : String) (opts : Options) (env : CreateEnv) (v : GCSVolume),
      lookupVol d n = some v →
        (GCSDriver.CreateInt64 d ⟨n, opts⟩ env).ret = none ∧
        lookupVol (GCSDriver.CreateInt64 d ⟨n, opts⟩ env).volumes n =
          some { v with count := wrapInt64 (v.count + 1) } ∧
        (-(2 : Int) ^ 63 ≤ v.count → v.count < (2 : Int) ^ 63 - 1 →
          lookupVol (GCSDriver.CreateInt64 d ⟨n, opts⟩ env).volumes n =
            some { v with count := v.count + 1 }) ∧
        (v.count = (2 : Int) ^ 63 - 1 →
          lookupVol (GCSDriver.CreateInt64 d ⟨n, opts⟩ env).volumes n =
            some { v with count := -(2 : Int) ^ 63 }) ∧
        (∀ m, m ≠ n →
          lookupVol (GCSDriver.CreateInt64 d ⟨n, opts⟩ env).volumes m = lookupVol d m) ∧
        (GCSDriver.CreateInt64 d ⟨n, opts⟩ env).volumes.map Prod.fst = d.map Prod.fst ∧
        (GCSDriver.CreateInt64 d ⟨n, opts⟩ env).events = []) ∧
    (∀ (d : Registry) (n : String) (opts1 opts2 : Options) (env1 env2 : CreateEnv),
      lookupVol d n = none → (GCSDriver.CreateInt64 d ⟨n, opts1⟩ env1).ret = none →
        ∃ v, lookupVol (GCSDriver.CreateInt64
            (GCSDriver.CreateInt64 d ⟨n, opts1⟩ env1).volumes ⟨n, opts2⟩ env2).volumes n =
              some v ∧ v.count = 2) := by
  have part1 : ∀ (d : Registry) (n : String) (opts : Options) (env : CreateEnv)
      (v : GCSVolume), lookupVol d n = some v →
        (GCSDriver.CreateInt64 d ⟨n, opts⟩ env).ret = none ∧
        lookupVol (GCSDriver.CreateInt64 d ⟨n, opts⟩ env).volumes n =
          some { v with count := wrapInt64 (v.count + 1) } ∧
        (∀ m, m ≠ n →
          lookupVol (GCSDriver.CreateInt64 d ⟨n, opts⟩ env).volumes m = lookupVol d m) ∧
        (GCSDriver.CreateInt64 d ⟨n, opts⟩ env).volumes.map Prod.fst = d.map Prod.fst ∧
        (GCSDriver.CreateInt64 d ⟨n, opts⟩ env).events = [] := by
    intro d n opts env v h
    have hv : (GCSDriver.CreateInt64 d ⟨n, opts⟩ env).volumes =
        modifyVol (fun v => { v with count := wrapInt64 (v.count + 1) }) n d := by
      simp [GCSDriver.CreateInt64, h]
    refine ⟨by simp [GCSDriver.CreateInt64, h], ?_, ?_, ?_,
      by simp [GCSDriver.CreateInt64, h]⟩
    · rw [hv, lookupVol_modifyVol]; simp [h]
    · intro m hm
      rw [hv, lookupVol_modifyVol]; simp [hm]
    · rw [hv, modifyVol_keys]
  constructor
  · intro d n opts env v h
    obtain ⟨hret, hl, hothers, hkeys, hev⟩ := part1 d n opts env v h
    refine ⟨hret, hl, ?_, ?_, hothers, hkeys, hev⟩
    · intro h1 h2
      rw [hl, wrapInt64_of_range (v.count + 1) (by omega) (by omega)]
    · intro hmax
      rw [hl, hmax]
      have : wrapInt64 ((2 : Int) ^ 63 - 1 + 1) = -(2 : Int) ^ 63 := by
        unfold wrapInt64
        norm_num
      rw [this]
  · intro d n opts1 opts2 env1 env2 hn hret
    have hfresh : GCSDriver.CreateInt64 d ⟨n, opts1⟩ env1 = GCSDriver.Create d ⟨n, opts1⟩ env1 := by
      simp [GCSDriver.CreateInt64, hn]
    rw [hfresh] at hret ⊢
    have h2 : wrapInt64 2 = 2 := by
      unfold wrapInt64
      norm_num
    rcases Create_cases d ⟨n, opts1⟩ env1 with ⟨v, hv, _⟩ | ⟨_, _, e⟩ | ⟨_, kf, e, _, _⟩
    · simp only at hv; rw [hn] at hv; cases hv
    · exact absurd hret e
    · have hl : lookupVol (GCSDriver.Create d ⟨n, opts1⟩ env1).volumes n =
          some (newVolume ⟨n, opts1⟩ kf) := by
        rw [e]; simp only; rw [lookupVol_append d n n _ hn]; simp
      exact ⟨_, (part1 _ n opts2 env2 _ hl).2.1, by simp [newVolume, h2]⟩

/-- C2 as amended, at concrete inputs: a re-attach with other options on a registered
name with count 1, and a second Create of a fresh name. -/
theorem create_reattach_int64_witness :
    (lookupVol demoRegistry "a" = some demoVolume ∧
      -(2 : Int) ^ 63 ≤ demoVolume.count ∧ demoVolume.count < (2 : Int) ^ 63 - 1 ∧
      (GCSDriver.CreateInt64 demoRegistry ⟨"a", [("bucket", "z"), ("debug", "x")]⟩ okEnv).ret
        = none ∧
      lookupVol (GCSDriver.CreateInt64 demoRegistry
          ⟨"a", [("bucket", "z"), ("debug", "x")]⟩ okEnv).volumes "a" =
        some { demoVolume with count := demoVolume.count + 1 } ∧
      (GCSDriver.CreateInt64 demoRegistry
          ⟨"a", [("bucket", "z"), ("debug", "x")]⟩ okEnv).events = []) ∧
    (lookupVol NewGCSDriver "a" = none ∧
      (GCSDriver.CreateInt64 NewGCSDriver ⟨"a", []⟩ okEnv).ret = none ∧
      ∃ v, lookupVol (GCSDriver.CreateInt64
          (GCSDriver.CreateInt64 NewGCSDriver ⟨"a", []⟩ okEnv).volumes
          ⟨"a", [("key", "k")]⟩ okEnv).volumes "a" = some v ∧ v.count = 2) :=
  ⟨⟨by decide, by decide, by decide,
      (create_reattach_int64.1 demoRegistry "a" [("bucket", "z"), ("debug", "x")] okEnv
        demoVolume (by decide)).1,
      (create_reattach_int64.1 demoRegistry "a" [("bucket", "z"), ("debug", "x")] okEnv
        demoVolume (by decide)).2.2.1 (by decide) (by decide),
      (create_reattach_int64.1 demoRegistry "a" [("bucket", "z"), ("debug", "x")] okEnv
        demoVolume (by decide)).2.2.2.2.2.2⟩,
    ⟨by decide, by decide,
      create_reattach_int64.2 NewGCSDriver "a" [] [("key", "k")] okEnv okEnv (by decide)
        (by decide)⟩⟩

/-! ## Mount and Unmount -/

/-- C3 fails as stated: in the registry reached by a successful Create and Mount of the
name v, two further consecutive Mount calls both succeed and return the mount path, yet
the mount helper is invoked zero times in total, not once. -/
theorem mount_twice_zero_helper_runs :
    (GCSDriver.Mount mountedRegistry "v" okExec).ret = Except.ok "/mnt/buckets/v" ∧
    (GCSDriver.Mount (GCSDriver.Mount mountedRegistry "v" okExec).volumes "v" okExec).ret =
      Except.ok "/mnt/buckets/v" ∧
    helperRuns ((GCSDriver.Mount mountedRegistry "v" okExec).events ++
      (GCSDriver.Mount (GCSDriver.Mount mountedRegistry "v" okExec).volumes "v"
        okExec).events) = 0 ∧
    helperRuns ((GCSDriver.Mount mountedRegistry "v" okExec).events ++
      (GCSDriver.Mount (GCSDriver.Mount mountedRegistry "v" okExec).volumes "v"
        okExec).events) ≠ 1 := by
  refine ⟨by rfl, by rfl, by decide, by decide⟩

/-- C3 as amended. For a registered name whose volume is mounted, `Mount` performs no
external call, returns the mount path and leaves the registry unchanged; and of two
consecutive `Mount` calls of which the first succeeds, both return the same mount path,
the second performs no external call and changes nothing, and the mount helper is
invoked at most once in total: once when the volume was not mounted before the first
call, not at all when it was. -/
theorem mount_idempotent (d : Registry) (n : String) (v : GCSVolume) (ex1 ex2 : ExecResult)
    (h : lookupVol d n = some v) :
    (v.mounted = true →
      (GCSDriver.Mount d n ex1).events = [] ∧
      (GCSDriver.Mount d n ex1).ret = Except.ok v.path ∧
      (GCSDriver.Mount d n ex1).volumes = d) ∧
    ((∃ p, (GCSDriver.Mount d n ex1).ret = Except.ok p) →
      (GCSDriver.Mount d n ex1).ret = Except.ok v.path ∧
      (GCSDriver.Mount (GCSDriver.Mount d n ex1).volumes n ex2).ret = Except.ok v.path ∧
      (GCSDriver.Mount (GCSDriver.Mount d n ex1).volumes n ex2).events = [] ∧
      (GCSDriver.Mount (GCSDriver.Mount d n ex1).volumes n ex2).volumes =
        (GCSDriver.Mount d n ex1).volumes ∧
      helperRuns ((GCSDriver.Mount d n ex1).events ++
        (GCSDriver.Mount (GCSDriver.Mount d n ex1).volumes n ex2).events) ≤ 1 ∧
      helperRuns ((GCSDriver.Mount d n ex1).events ++
        (GCSDriver.Mount (GCSDriver.Mount d n ex1).volumes n ex2).events) =
          if v.mounted then 0 else 1) := by
  have mounted_case : ∀ (d : Registry) (w : GCSVolume) (ex : ExecResult),
      lookupVol d n = some w → w.mounted = true →
        (GCSDriver.Mount d n ex).events = [] ∧
        (GCSDriver.Mount d n ex).ret = Except.ok w.path ∧
        (GCSDriver.Mount d n ex).volumes = d := by
    intro d w ex hw hm
    simp [GCSDriver.Mount, hw, hm]
  refine ⟨mounted_case d v ex1 h, ?_⟩
  rintro ⟨p, hp⟩
  cases hm : v.mounted with
  | true =>
    obtain ⟨e1, r1, v1⟩ := mounted_case d v ex1 h hm
    obtain ⟨e2, r2, v2⟩ := mounted_case d v ex2 h hm
    simp [e1, r1, v1, e2, r2, v2, helperRuns]
  | false =>
    cases he : ex1.err with
    | some e => simp [GCSDriver.Mount, h, hm, he] at hp
    | none =>
      have hv1 : (GCSDriver.Mount d n ex1).volumes =
          modifyVol (fun v => { v with mounted := true }) n d := by
        simp [GCSDriver.Mount, h, hm, he]
      have hl : lookupVol (GCSDriver.Mount d n ex1).volumes n =
          some { v with mounted := true } := by
        rw [hv1, lookupVol_modifyVol]; simp [h]
      obtain ⟨e2, r2, v2⟩ := mounted_case _ _ ex2 hl rfl
      have e1 : (GCSDriver.Mount d n ex1).events = [Event.run (mountArgs v) true] := by
        simp [GCSDriver.Mount, h, hm, he]
      have r1 : (GCSDriver.Mount d n ex1).ret = Except.ok v.path := by
        simp [GCSDriver.Mount, h, hm, he]
      refine ⟨r1, r2, e2, v2, ?_, ?_⟩ <;>
        simp [e1, e2, helperRuns, isHelperRun, mountArgs, List.filter]

/-- C3 as amended, at a registered unmounted volume whose first Mount succeeds. -/
theorem mount_idempotent_witness :
    lookupVol demoRegistry "a" = some demoVolume ∧
    (∃ p, (GCSDriver.Mount demoRegistry "a" okExec).ret = Except.ok p) ∧
    (GCSDriver.Mount (GCSDriver.Mount demoRegistry "a" okExec).volumes "a" failExec).ret =
      Except.ok demoVolume.path ∧
    helperRuns ((GCSDriver.Mount demoRegistry "a" okExec).events ++
      (GCSDriver.Mount (GCSDriver.Mount demoRegistry "a" okExec).volumes "a"
        failExec).events) = if demoVolume.mounted then 0 else 1 :=
  ⟨by decide, ⟨"/mnt/buckets/a", rfl⟩,
    ((mount_idempotent demoRegistry "a" demoVolume okExec failExec (by decide)).2
      ⟨"/mnt/buckets/a", rfl⟩).2.1,
    ((mount_idempotent demoRegistry "a" demoVolume okExec failExec (by decide)).2
      ⟨"/mnt/buckets/a", rfl⟩).2.2.2.2.2⟩

/-- C4. `Unmount` always returns an error; when the name is registered and either its
count exceeds 1 or the unmount utility exits zero, the error is the unknown-volume
error, the same as for a name that is not registered. -/
theorem unmount_always_errors (d : Registry) (n : String) (ex : ExecResult) :
    (GCSDriver.Unmount d n ex).ret ≠ none ∧
    (∀ v, lookupVol d n = some v → (v.count > 1 ∨ ex.err = none) →
      (GCSDriver.Unmount d n ex).ret = some ("unknown volume " ++ n)) ∧
    (lookupVol d n = none →
      (GCSDriver.Unmount d n ex).ret = some ("unknown volume " ++ n)) := by
  refine ⟨?_, ?_, ?_⟩
  · unfold GCSDriver.Unmount
    cases lookupVol d n with
    | none => simp
    | some v =>
      by_cases hc : v.count > 1
      · simp [hc]
      · cases he : ex.err <;> simp [hc]
  · intro v hv hor
    unfold GCSDriver.Unmount
    by_cases hc : v.count > 1
    · simp [hv, hc]
    · rcases hor with h1 | h2
      · exact absurd h1 hc
      · simp [hv, hc, h2]
  · intro hn
    simp [GCSDriver.Unmount, hn]

/-- C4 at a registered volume with one holder whose unmount utility exits zero. -/
theorem unmount_always_errors_witness :
    lookupVol demoRegistry "a" = some demoVolume ∧
    (demoVolume.count > 1 ∨ okExec.err = none) ∧
    (GCSDriver.Unmount demoRegistry "a" okExec).ret = some ("unknown volume " ++ "a") :=
  ⟨by decide, Or.inr rfl,
    (unmount_always_errors demoRegistry "a" okExec).2.1 demoVolume (by decide) (Or.inr rfl)⟩

/-! ## Credential cleanup -/

/-- C5, the failing input. A `Create` whose key option reaches a file of the temporary
key storage through dot-dot segments finds the file with Lstat and so never calls
`createKeyFile` (no file is created or written); the following `Remove` takes the count
to zero, deregisters the volume and deletes that caller-supplied file. -/
theorem remove_deletes_caller_supplied_key :
    (GCSDriver.Create NewGCSDriver traversalRequest okEnv).ret = none ∧
    (GCSDriver.Create NewGCSDriver traversalRequest okEnv).events =
      [Event.lstat "/tmp/keys/k", Event.lstat "/mnt/buckets/b"] ∧
    (lookupVol (GCSDriver.Create NewGCSDriver traversalRequest okEnv).volumes "b").map
      (fun v => (v.keyFile, v.count)) = some ("/tmp/keys/k", 1) ∧
    (GCSDriver.Remove (GCSDriver.Create NewGCSDriver traversalRequest okEnv).volumes "b"
      none).events = [Event.removeFile "/tmp/keys/k"] ∧
    (GCSDriver.Remove (GCSDriver.Create NewGCSDriver traversalRequest okEnv).volumes "b"
      none).volumes = [] := by
  refine ⟨by decide, by decide, by decide, by decide, by decide⟩

/-! ## The mounted flag -/

/-- C6 fails as stated: after Create, a successful Mount, Remove and Create again of
the name a, the name is registered with mounted = false, although the mount helper has
been run with success on its mount path and nothing has unmounted that path since. -/
theorem mounted_flag_forgets_mount :
    (lookupVol (run NewGCSDriver remountCalls) "a").map (fun v => (v.mounted, v.path)) =
      some (false, "/mnt/buckets/a") ∧
    hostMounted "/mnt/buckets/a" (traceEvents NewGCSDriver remountCalls) = true := by
  refine ⟨by decide, by decide⟩

theorem liveStep_sound (n : String) (d : Registry) (live : Bool) (c : Call)
    (hd : ∀ v, lookupVol d n = some v → v.mounted = live) :
    ∀ w, lookupVol (step d c).1 n = some w → w.mounted = liveStep n live c (step d c).2 := by
  intro w hw
  cases c with
  | list => exact hd w hw
  | get m => simp only [step, Get_volumes] at hw; exact hd w hw
  | path m => simp only [step, Path_volumes] at hw; exact hd w hw
  | remove m rm =>
    simp only [step, Remove_volumes] at hw
    simp only [liveStep]
    cases hv : lookupVol d m with
    | none => simp only [hv] at hw; exact hd w hw
    | some v =>
      simp only [hv] at hw
      by_cases h0 : v.count - 1 = 0
      · simp only [h0, if_true, lookupVol_deleteVol] at hw
        by_cases hm : n = m
        · simp [hm] at hw
        · simp only [hm, if_false] at hw; exact hd w hw
      · simp only [h0, if_false, lookupVol_modifyVol] at hw
        by_cases hm : n = m
        · subst hm
          simp [hv] at hw
          rw [← hw]; exact hd v hv
        · simp only [hm, if_false] at hw; exact hd w hw
  | create r env =>
    simp only [step, liveStep]
    simp only [step] at hw
    rcases Create_cases d r env with ⟨v, hv, e, _, ee⟩ | ⟨hn, e, _⟩ | ⟨hn, kf, e, ee, _⟩
    · rw [e, lookupVol_modifyVol] at hw
      simp only [ee, ne_eq, not_true_eq_false, and_false, if_false]
      by_cases hm : n = r.Name
      · subst hm
        simp [hv] at hw
        rw [← hw]; exact hd v hv
      · simp only [hm, if_false] at hw; exact hd w hw
    · rw [e] at hw
      have hne : ¬ r.Name = n := by
        intro h; rw [h] at hn; rw [hn] at hw; cases hw
      simp only [hne, false_and, if_false]
      exact hd w hw
    · rw [e, lookupVol_append d r.Name n _ hn] at hw
      by_cases hm : n = r.Name
      · subst hm
        simp at hw
        simp [ee, ← hw, newVolume]
      · have hne : ¬ r.Name = n := fun h => hm h.symm
        simp only [hm, if_false] at hw
        simp only [hne, false_and, if_false]
        exact hd w hw
  | mount m ex =>
    simp only [step, liveStep]
    simp only [step] at hw
    by_cases hm : m = n
    · subst hm
      cases hv : lookupVol d m with
      | none => simp [GCSDriver.Mount, hv] at hw
      | some v =>
        have hlive := hd v hv
        cases hmt : v.mounted with
        | true =>
          simp [GCSDriver.Mount, hv, hmt] at hw ⊢
          rw [← hw, ← hlive, hmt]
        | false =>
          cases he : ex.err with
          | some e =>
            simp [GCSDriver.Mount, hv, hmt, he, isMountOk] at hw ⊢
            rw [← hw, ← hlive, hmt]
          | none =>
            simp [GCSDriver.Mount, hv, hmt, he, isMountOk, mountArgs, lookupVol_modifyVol]
              at hw ⊢
            rw [← hw]
    · have hnm : ¬ n = m := fun h => hm h.symm
      simp only [hm, false_and, if_false]
      rcases Mount_volumes d m ex with e | e
      · rw [e] at hw; exact hd w hw
      · rw [e, lookupVol_modifyVol] at hw
        simp only [hnm, if_false] at hw; exact hd w hw
  | unmount m ex =>
    simp only [step, liveStep]
    simp only [step] at hw
    by_cases hm : m = n
    · subst hm
      cases hv : lookupVol d m with
      | none => simp [GCSDriver.Unmount, hv] at hw
      | some v =>
        have hlive := hd v hv
        by_cases hc : v.count > 1
        · simp [GCSDriver.Unmount, hv, hc] at hw ⊢
          rw [← hw, ← hlive]
        · cases he : ex.err with
          | some e =>
            simp [GCSDriver.Unmount, hv, hc, he, isUnmountOk] at hw ⊢
            rw [← hw, ← hlive]
          | none =>
            simp [GCSDriver.Unmount, hv, hc, he, isUnmountOk, unmountArgs,
              lookupVol_modifyVol] at hw ⊢
            rw [← hw]
    · have hnm : ¬ n = m := fun h => hm h.symm
      simp only [hm, false_and, if_false]
      rcases Unmount_volumes d m ex with e | e
      · rw [e] at hw; exact hd w hw
      · rw [e, lookupVol_modifyVol] at hw
        simp only [hnm, if_false] at hw; exact hd w hw

theorem liveAfter_sound (n : String) (calls : List Call) :
    ∀ (d : Registry) (live : Bool), (∀ v, lookupVol d n = some v → v.mounted = live) →
      ∀ w, lookupVol (run d calls) n = some w →
        w.mounted = liveAfter n live (runLog d calls) := by
  induction calls with
  | nil => intro d live hd w hw; exact hd w hw
  | cons c cs ih =>
    intro d live hd w hw
    simp only [run] at hw
    simp only [runLog, liveAfter]
    exact ih (step d c).1 _ (liveStep_sound n d live c hd) w hw

/-- C6 as amended. Along every trace of calls from the empty registry, for every name
`n` registered at the end, mounted(n) is true iff, since the Create call that registered
the current volume of `n`, a Mount(n) call has run the mount helper with exit status
zero and no Unmount(n) call has run the unmount utility with exit status zero after
it. -/
theorem mounted_tracks_own_calls (calls : List Call) (n : String) (v : GCSVolume)
    (h : lookupVol (run NewGCSDriver calls) n = some v) :
    (v.mounted = true ↔ liveAfter n false (runLog NewGCSDriver calls) = true) := by
  have := liveAfter_sound n calls NewGCSDriver false
    (by intro v hv; simp [NewGCSDriver, lookupVol] at hv) v h
  rw [this]

/-- C6 as amended, on a trace that fails to mount, mounts, unmounts and mounts again. -/
theorem mounted_tracks_own_calls_witness :
    lookupVol (run NewGCSDriver cycleCalls) "a" = some { demoVolume with mounted := true } ∧
    (({ demoVolume with mounted := true } : GCSVolume).mounted = true ↔
      liveAfter "a" false (runLog NewGCSDriver cycleCalls) = true) :=
  ⟨by decide,
    mounted_tracks_own_calls cycleCalls "a" { demoVolume with mounted := true } (by decide)⟩

/-! ## Unmount of shared volumes, round trip, unknown names -/

/-- C7. Shared volumes are not unmounted: for a registered name with count above 1,
`Unmount` performs no external call and leaves the whole registry unchanged, so the
entry of the name, with its mounted flag and count, is the same afterwards. -/
theorem unmount_shared_noop (d : Registry) (n : String) (v : GCSVolume) (ex : ExecResult)
    (h : lookupVol d n = some v) (hc : v.count > 1) :
    (GCSDriver.Unmount d n ex).events = [] ∧
    (GCSDriver.Unmount d n ex).volumes = d ∧
    lookupVol (GCSDriver.Unmount d n ex).volumes n = some v := by
  have hv : (GCSDriver.Unmount d n ex).volumes = d := by simp [GCSDriver.Unmount, h, hc]
  exact ⟨by simp [GCSDriver.Unmount, h, hc], hv, by rw [hv]; exact h⟩

/-- C7 at a mounted volume with two holders. -/
theorem unmount_shared_noop_witness :
    lookupVol sharedRegistry "a" = some { demoVolume with count := 2, mounted := true } ∧
    ({ demoVolume with count := 2, mounted := true } : GCSVolume).count > 1 ∧
    (GCSDriver.Unmount sharedRegistry "a" okExec).events = [] ∧
    (GCSDriver.Unmount sharedRegistry "a" okExec).volumes = sharedRegistry ∧
    lookupVol (GCSDriver.Unmount sharedRegistry "a" okExec).volumes "a" =
      some { demoVolume with count := 2, mounted := true } :=
  ⟨by decide, by decide,
    unmount_shared_noop sharedRegistry "a" { demoVolume with count := 2, mounted := true }
      okExec (by decide) (by decide)⟩

/-- C8. Mount/Unmount round trip: for a registered name with count 1 that is not
mounted, a `Mount` whose helper exits zero sets only the mounted flag of that name, and
a following `Unmount` whose utility exits zero gives back exactly the starting
registry. -/
theorem mount_unmount_roundtrip (d : Registry) (n : String) (v : GCSVolume)
    (ex1 ex2 : ExecResult) (h : lookupVol d n = some v) (hc : v.count = 1)
    (hm : v.mounted = false) (h1 : ex1.err = none) (h2 : ex2.err = none) :
    lookupVol (GCSDriver.Mount d n ex1).volumes n = some { v with mounted := true } ∧
    (∀ m, m ≠ n → lookupVol (GCSDriver.Mount d n ex1).volumes m = lookupVol d m) ∧
    (GCSDriver.Unmount (GCSDriver.Mount d n ex1).volumes n ex2).volumes = d ∧
    (lookupVol (GCSDriver.Unmount (GCSDriver.Mount d n ex1).volumes n ex2).volumes n).map
      (fun w => w.mounted) = some false := by
  have hv1 : (GCSDriver.Mount d n ex1).volumes =
      modifyVol (fun v => { v with mounted := true }) n d := by
    simp [GCSDriver.Mount, h, hm, h1]
  have hl : lookupVol (GCSDriver.Mount d n ex1).volumes n = some { v with mounted := true } := by
    rw [hv1, lookupVol_modifyVol]; simp [h]
  have hnc : ¬ ({ v with mounted := true } : GCSVolume).count > 1 := by
    simp only; omega
  have hv2 : (GCSDriver.Unmount (GCSDriver.Mount d n ex1).volumes n ex2).volumes = d := by
    unfold GCSDriver.Unmount
    rw [hl]
    simp only [hnc, if_false, h2]
    rw [hv1, modifyVol_modifyVol]
    apply modifyVol_of_fix
    intro w hw
    rw [h] at hw
    cases hw
    cases v
    simp only at hm
    simp [hm]
  refine ⟨hl, ?_, hv2, ?_⟩
  · intro m hmn
    rw [hv1, lookupVol_modifyVol]; simp [hmn]
  · rw [hv2, h]; simp [hm]

/-- C8 at the registry holding the unmounted volume of the name a. -/
theorem mount_unmount_roundtrip_witness :
    lookupVol demoRegistry "a" = some demoVolume ∧ demoVolume.count = 1 ∧
    demoVolume.mounted = false ∧ okExec.err = none ∧
    lookupVol (GCSDriver.Mount demoRegistry "a" okExec).volumes "a" =
      some { demoVolume with mounted := true } ∧
    (GCSDriver.Unmount (GCSDriver.Mount demoRegistry "a" okExec).volumes "a" okExec).volumes =
      demoRegistry :=
  ⟨by decide, by decide, by decide, rfl,
    (mount_unmount_roundtrip demoRegistry "a" demoVolume okExec okExec (by decide)
      (by decide) (by decide) rfl rfl).1,
    (mount_unmount_roundtrip demoRegistry "a" demoVolume okExec okExec (by decide)
      (by decide) (by decide) rfl rfl).2.2.1⟩

/-- C9. Unknown names are rejected without effect: for a name that is not registered,
`Get`, `Path` and `Mount` return the error unknown volume followed by the name, perform
no external call and leave the registry unchanged; for a registered name `Get` and
`Path` return the name and mount path without error. -/
theorem unknown_name_rejected (d : Registry) (n : String) :
    (lookupVol d n = none →
      ((GCSDriver.Get d n).ret = Except.error ("unknown volume " ++ n) ∧
        (GCSDriver.Get d n).events = [] ∧ (GCSDriver.Get d n).volumes = d) ∧
      ((GCSDriver.Path d n).ret = Except.error ("unknown volume " ++ n) ∧
        (GCSDriver.Path d n).events = [] ∧ (GCSDriver.Path d n).volumes = d) ∧
      (∀ ex, (GCSDriver.Mount d n ex).ret = Except.error ("unknown volume " ++ n) ∧
        (GCSDriver.Mount d n ex).events = [] ∧ (GCSDriver.Mount d n ex).volumes = d)) ∧
    (∀ v, lookupVol d n = some v →
      (GCSDriver.Get d n).ret = Except.ok (n, v.path) ∧
      (GCSDriver.Path d n).ret = Except.ok v.path) := by
  constructor
  · intro h
    simp [GCSDriver.Get, GCSDriver.Path, GCSDriver.Mount, h]
  · intro v h
    simp [GCSDriver.Get, GCSDriver.Path, h]

/-- C9 at a name missing from, and a name present in, a one-volume registry. -/
theorem unknown_name_rejected_witness :
    (lookupVol demoRegistry "missing" = none ∧
      (GCSDriver.Mount demoRegistry "missing" okExec).ret =
        Except.error ("unknown volume " ++ "missing") ∧
      (GCSDriver.Mount demoRegistry "missing" okExec).events = []) ∧
    (lookupVol demoRegistry "a" = some demoVolume ∧
      (GCSDriver.Get demoRegistry "a").ret = Except.ok ("a", demoVolume.path)) :=
  ⟨⟨by decide,
      (((unknown_name_rejected demoRegistry "missing").1 (by decide)).2.2 okExec).1,
      (((unknown_name_rejected demoRegistry "missing").1 (by decide)).2.2 okExec).2.1⟩,
    ⟨by decide, ((unknown_name_rejected demoRegistry "a").2 demoVolume (by decide)).1⟩⟩

/-! ## The mount path -/

theorem run_path (calls : List Call) :
    ∀ d : Registry, (∀ m v, lookupVol d m = some v → v.path = filepathJoin BucketMount m) →
      ∀ m v, lookupVol (run d calls) m = some v → v.path = filepathJoin BucketMount m := by
  induction calls with
  | nil => intro d hd m v h; exact hd m v h
  | cons c cs ih =>
    intro d hd
    apply ih (step d c).1
    intro m w hw
    rcases step_lookup d c m w hw with ⟨v, hv, hp, _⟩ | ⟨_, _, _, hp⟩
    · rw [hp]; exact hd m v hv
    · exact hp

/-- C10. The mount path is a fixed function of the name: in every registry reached from
the empty one by any sequence of calls, a registered name `n` has path
filepath.Join of the bucket mount root and `n`, and `Get`, `Path` and every successful
`Mount` of `n` return exactly that path; and after a `Create` of the name logs with
bucket acme-logs that returns no error, `Get` returns the path /mnt/buckets/logs. -/
theorem path_fixed_by_name :
    (∀ (calls : List Call) (n : String) (v : GCSVolume),
      lookupVol (run NewGCSDriver calls) n = some v →
        v.path = filepathJoin BucketMount n ∧
        (GCSDriver.Get (run NewGCSDriver calls) n).ret =
          Except.ok (n, filepathJoin BucketMount n) ∧
        (GCSDriver.Path (run NewGCSDriver calls) n).ret =
          Except.ok (filepathJoin BucketMount n) ∧
        (∀ ex p, (GCSDriver.Mount (run NewGCSDriver calls) n ex).ret = Except.ok p →
          p = filepathJoin BucketMount n)) ∧
    (∀ env : CreateEnv, (GCSDriver.Create NewGCSDriver logsRequest env).ret = none →
      (GCSDriver.Get (GCSDriver.Create NewGCSDriver logsRequest env).volumes "logs").ret =
        Except.ok ("logs", "/mnt/buckets/logs")) := by
  constructor
  · intro calls n v h
    have hp : v.path = filepathJoin BucketMount n :=
      run_path calls NewGCSDriver (by intro m v h; simp [NewGCSDriver, lookupVol] at h) n v h
    refine ⟨hp, by simp [GCSDriver.Get, h, hp], by simp [GCSDriver.Path, h, hp], ?_⟩
    intro ex p hret
    unfold GCSDriver.Mount at hret
    rw [h] at hret
    cases hm : v.mounted with
    | true =>
      simp [hm] at hret
      rw [← hret, hp]
    | false =>
      cases he : ex.err with
      | some e => simp [hm, he] at hret
      | none =>
        simp [hm, he] at hret
        rw [← hret, hp]
  · intro env hret
    rcases Create_cases NewGCSDriver logsRequest env with ⟨v, hv, _⟩ | ⟨_, _, e⟩ | ⟨_, kf, e, _, _⟩
    · simp [NewGCSDriver, lookupVol] at hv
    · exact absurd hret e
    · rw [e]
      have hj : filepathJoin BucketMount "logs" = "/mnt/buckets/logs" := by decide
      simp [GCSDriver.Get, NewGCSDriver, lookupVol, logsRequest, newVolume, hj]

/-- C10 on a trace that mounts, removes and re-creates the name a, and on the scenario
of the name logs. -/
theorem path_fixed_by_name_witness :
    (lookupVol (run NewGCSDriver remountCalls) "a" = some demoVolume ∧
      demoVolume.path = filepathJoin BucketMount "a" ∧
      (GCSDriver.Get (run NewGCSDriver remountCalls) "a").ret =
        Except.ok ("a", filepathJoin BucketMount "a")) ∧
    ((GCSDriver.Create NewGCSDriver logsRequest okEnv).ret = none ∧
      (GCSDriver.Get (GCSDriver.Create NewGCSDriver logsRequest okEnv).volumes "logs").ret =
        Except.ok ("logs", "/mnt/buckets/logs")) :=
  ⟨⟨by decide, (path_fixed_by_name.1 remountCalls "a" demoVolume (by decide)).1,
      (path_fixed_by_name.1 remountCalls "a" demoVolume (by decide)).2.1⟩,
    ⟨by decide, path_fixed_by_name.2 okEnv (by decide)⟩⟩

/-! ## Create on an unregistered name -/

theorem Create_of_key_error (d : Registry) (r : CreateRequest) (env : CreateEnv)
    (e : String) (ev : List Event) (h : lookupVol d r.Name = none)
    (hk : resolveKey r env = (Except.error e, ev)) :
    (GCSDriver.Create d r env).volumes = d ∧ (GCSDriver.Create d r env).ret = some e ∧
      (GCSDriver.Create d r env).events = ev := by
  simp [GCSDriver.Create, h, hk]

theorem Create_of_dir_error (d : Registry) (r : CreateRequest) (env : CreateEnv)
    (K e : String) (ev ev2 : List Event) (h : lookupVol d r.Name = none)
    (hk : resolveKey r env = (Except.ok K, ev))
    (hd : createDir (filepathJoin BucketMount r.Name) env.dirLstat env.mkdirAll = (some e, ev2)) :
    (GCSDriver.Create d r env).volumes = d ∧ (GCSDriver.Create d r env).ret = some e ∧
      (GCSDriver.Create d r env).events = ev ++ ev2 := by
  simp [GCSDriver.Create, h, hk, hd]

theorem Create_of_dir_ok (d : Registry) (r : CreateRequest) (env : CreateEnv)
    (K : String) (ev ev2 : List Event) (h : lookupVol d r.Name = none)
    (hk : resolveKey r env = (Except.ok K, ev))
    (hd : createDir (filepathJoin BucketMount r.Name) env.dirLstat env.mkdirAll = (none, ev2)) :
    (GCSDriver.Create d r env).volumes = d ++ [(r.Name, newVolume r K)] ∧
      lookupVol (GCSDriver.Create d r env).volumes r.Name = some (newVolume r K) ∧
      (∀ m, m ≠ r.Name → lookupVol (GCSDriver.Create d r env).volumes m = lookupVol d m) := by
  have hv : (GCSDriver.Create d r env).volumes = d ++ [(r.Name, newVolume r K)] := by
    cases hdbg : optLookup r.Options "debug" with
    | none => simp [GCSDriver.Create, h, hk, hd, hdbg, insertVol]
    | some dbg =>
      cases ha : strconvAtoi dbg <;> simp [GCSDriver.Create, h, hk, hd, hdbg, ha, insertVol]
  refine ⟨hv, ?_, ?_⟩
  · rw [hv, lookupVol_append d r.Name r.Name _ h]; simp
  · intro m hm
    rw [hv, lookupVol_append d r.Name m _ h]; simp [hm]

/-- A `Create` of an unregistered name that returns no error resolved a key file, found
or made the mount directory and registered the new volume. -/
theorem Create_fresh_success (d : Registry) (r : CreateRequest) (env : CreateEnv)
    (h : lookupVol d r.Name = none) (hret : (GCSDriver.Create d r env).ret = none) :
    ∃ K ev, resolveKey r env = (Except.ok K, ev) ∧
      lookupVol (GCSDriver.Create d r env).volumes r.Name = some (newVolume r K) := by
  rcases hk : resolveKey r env with ⟨res, ev⟩
  cases res with
  | error e =>
    have := (Create_of_key_error d r env e ev h hk).2.1
    rw [this] at hret; cases hret
  | ok K =>
    rcases hd : createDir (filepathJoin BucketMount r.Name) env.dirLstat env.mkdirAll
      with ⟨err, ev2⟩
    cases err with
    | some e =>
      have := (Create_of_dir_error d r env K e ev ev2 h hk hd).2.1
      rw [this] at hret; cases hret
    | none => exact ⟨K, ev, rfl, (Create_of_dir_ok d r env K ev ev2 h hk hd).2.1⟩

/-! ## strings.Fields -/

theorem splitSpace_ne_nil (cs : List Char) : splitSpace cs ≠ [] := by
  cases cs with
  | nil => simp [splitSpace]
  | cons c cs =>
    unfold splitSpace
    by_cases hc : isSpace c = true
    · simp [hc]
    · cases splitSpace cs <;> simp [hc]

theorem fieldsAux_eq (cs : List Char) :
    ∀ cur : List Char, fieldsAux cur cs =
      (match splitSpace cs with
        | [] => []
        | h :: t => (cur.reverse ++ h) :: t).filter (fun t => t ≠ []) := by
  induction cs with
  | nil =>
    intro cur
    by_cases hc : cur = []
    · simp [fieldsAux, splitSpace, hc]
    · simp [fieldsAux, splitSpace, hc, List.filter]
  | cons c cs ih =>
    intro cur
    have ih0 := ih []
    have hne := splitSpace_ne_nil cs
    by_cases hs : isSpace c = true
    · cases hsp : splitSpace cs with
      | nil => exact absurd hsp hne
      | cons h t =>
        rw [hsp] at ih0
        simp only [List.reverse_nil, List.nil_append] at ih0
        by_cases hc : cur = []
        · simp [fieldsAux, splitSpace, hs, hc, ih0, hsp, List.filter]
        · simp [fieldsAux, splitSpace, hs, hc, ih0, hsp, List.filter]
    · have ih1 := ih (c :: cur)
      cases hsp : splitSpace cs with
      | nil => exact absurd hsp hne
      | cons h t =>
        rw [hsp] at ih1
        simp only [fieldsAux, splitSpace, hs, hsp, ih1]
        simp

/-- Go's strings.Fields gives the maximal white-space-free tokens in order. -/
theorem stringsFields_eq_tokensSpec (s : String) : stringsFields s = tokensSpec s := by
  unfold stringsFields tokensSpec
  rw [fieldsAux_eq]
  cases hsp : splitSpace s.data with
  | nil => exact absurd hsp (splitSpace_ne_nil _)
  | cons h t => simp

theorem fieldsAux_tokens (cs : List Char) :
    ∀ cur : List Char, (∀ c ∈ cur, isSpace c = false) →
      ∀ t ∈ fieldsAux cur cs, t ≠ [] ∧ ∀ c ∈ t, isSpace c = false := by
  induction cs with
  | nil =>
    intro cur hcur t ht
    by_cases hc : cur = []
    · simp [fieldsAux, hc] at ht
    · simp only [fieldsAux, hc, if_false, List.mem_singleton] at ht
      subst ht
      exact ⟨by simpa using hc, by intro c hc2; exact hcur c (by simpa using hc2)⟩
  | cons c cs ih =>
    intro cur hcur t ht
    by_cases hs : isSpace c = true
    · by_cases hc : cur = []
      · simp only [fieldsAux, hs, hc, if_true] at ht
        exact ih [] (by simp) t ht
      · simp only [fieldsAux, hs, hc, if_true, if_false, List.mem_cons] at ht
        rcases ht with ht | ht
        · subst ht
          exact ⟨by simpa using hc, by intro c hc2; exact hcur c (by simpa using hc2)⟩
        · exact ih [] (by simp) t ht
    · simp only [fieldsAux, hs] at ht
      apply ih (c :: cur) _ t ht
      intro x hx
      rcases List.mem_cons.1 hx with hx | hx
      · subst hx; simpa using hs
      · exact hcur x hx

theorem fieldsAux_all_space (cs : List Char) (h : ∀ c ∈ cs, isSpace c = true) :
    fieldsAux [] cs = [] := by
  induction cs with
  | nil => simp [fieldsAux]
  | cons c cs ih =>
    have hc : isSpace c = true := h c (by simp)
    simp only [fieldsAux, hc, if_true]
    exact ih (fun x hx => h x (by simp [hx]))

theorem tokensSpec_tokens (f : String) :
    ∀ t ∈ tokensSpec f, t ≠ "" ∧ ∀ c ∈ t.data, isSpace c = false := by
  intro t ht
  rw [← stringsFields_eq_tokensSpec] at ht
  unfold stringsFields at ht
  obtain ⟨u, hu, rfl⟩ := List.mem_map.1 ht
  obtain ⟨hne, hsp⟩ := fieldsAux_tokens f.data [] (by simp) u hu
  refine ⟨?_, hsp⟩
  intro hcontra
  apply hne
  have := congrArg String.data hcontra
  simpa using this

/-! ## The argument vector of the mount helper -/

/-- C11. Mount helper argument vector: after a `Create` of an unregistered name that
returns no error, with resolved key file K, a `Mount` of the name runs the helper once,
with the arguments gcsfuse, the key-file flag for K, the allow_other flag, the maximal
white-space-free tokens of the flags option in order (none when the option is absent or
all white space), then the bucket option when present (even if empty) and the name
otherwise, then filepath.Join of the bucket mount root and the name; no token is empty
or contains white space. -/
theorem mount_argument_vector (d : Registry) (n : String) (opts : Options) (env : CreateEnv)
    (ex : ExecResult) (h : lookupVol d n = none)
    (hret : (GCSDriver.Create d ⟨n, opts⟩ env).ret = none) :
    ∃ K ev, resolveKey ⟨n, opts⟩ env = (Except.ok K, ev) ∧
      (lookupVol (GCSDriver.Create d ⟨n, opts⟩ env).volumes n).map (fun v => v.keyFile) =
        some K ∧
      (GCSDriver.Mount (GCSDriver.Create d ⟨n, opts⟩ env).volumes n ex).events =
        [Event.run
          (["gcsfuse", "--key-file=" ++ K, "-o=allow_other"] ++
            (match optLookup opts "flags" with
              | some f => tokensSpec f
              | none => []) ++
            [(match optLookup opts "bucket" with
              | some b => b
              | none => n), filepathJoin BucketMount n])
          ex.err.isNone] ∧
      (∀ f, optLookup opts "flags" = some f →
        ∀ t ∈ tokensSpec f, t ≠ "" ∧ ∀ c ∈ t.data, isSpace c = false) ∧
      (∀ f, optLookup opts "flags" = some f → (∀ c ∈ f.data, isSpace c = true) →
        tokensSpec f = []) := by
  obtain ⟨K, ev, hk, hl⟩ := Create_fresh_success d ⟨n, opts⟩ env h hret
  simp only at hl
  refine ⟨K, ev, hk, by rw [hl]; rfl, ?_, fun f _ => tokensSpec_tokens f, ?_⟩
  · have hargs : mountArgs (newVolume ⟨n, opts⟩ K) =
        ["gcsfuse", "--key-file=" ++ K, "-o=allow_other"] ++
          (match optLookup opts "flags" with
            | some f => tokensSpec f
            | none => []) ++
          [(match optLookup opts "bucket" with
            | some b => b
            | none => n), filepathJoin BucketMount n] := by
      cases hf : optLookup opts "flags" <;>
        simp [mountArgs, newVolume, hf, stringsFields_eq_tokensSpec]
    rw [← hargs]
    unfold GCSDriver.Mount
    rw [hl]
    cases he : ex.err <;> simp [newVolume, he]
  · intro f _ hall
    rw [← stringsFields_eq_tokensSpec]
    simp [stringsFields, fieldsAux_all_space f.data hall]

/-- C11 at a request with a bucket, two extra flags between white space and an inline
key. -/
theorem mount_argument_vector_witness :
    lookupVol NewGCSDriver "data" = none ∧
    (GCSDriver.Create NewGCSDriver flagsRequest inlineEnv).ret = none ∧
    (GCSDriver.Mount (GCSDriver.Create NewGCSDriver flagsRequest inlineEnv).volumes "data"
      okExec).events =
      [Event.run ["gcsfuse", "--key-file=/tmp/keys/123", "-o=allow_other", "--implicit-dirs",
        "--uid=7", "acme", "/mnt/buckets/data"] true] ∧
    ∃ K ev, resolveKey flagsRequest inlineEnv = (Except.ok K, ev) ∧
      (lookupVol (GCSDriver.Create NewGCSDriver flagsRequest inlineEnv).volumes "data").map
        (fun v => v.keyFile) = some K :=
  ⟨by decide, by decide, by decide,
    (mount_argument_vector NewGCSDriver "data" flagsRequest.Options inlineEnv okExec
      (by decide) (by decide)).imp
      (fun _ hK => hK.imp (fun _ hev => ⟨hev.1, hev.2.1⟩))⟩

/-! ## Credential resolution -/

theorem createDir_no_file_creation (p : String) (l : LstatResult) (mk : Option String) :
    (createDir p l mk).2.any isFileCreation = false := by
  unfold createDir
  cases l with
  | notExist e => cases mk <;> simp [isFileCreation]
  | failed e => simp [isFileCreation]
  | found isDir => cases isDir <;> simp [isFileCreation]

theorem debugVolume_no_file_creation (v : GCSVolume) (t : Int) (env : DebugEnv) :
    (debugVolume v t env).2.any isFileCreation = false := by
  unfold debugVolume
  cases env.start <;> simp [isFileCreation]

/-- The events of a `Create` of an unregistered name are those of the key resolution
followed by events that create or write no file. -/
theorem Create_fresh_events (d : Registry) (r : CreateRequest) (env : CreateEnv)
    (h : lookupVol d r.Name = none) :
    ∃ rest, (GCSDriver.Create d r env).events = (resolveKey r env).2 ++ rest ∧
      rest.any isFileCreation = false := by
  rcases hk : resolveKey r env with ⟨res, ev⟩
  cases res with
  | error e => exact ⟨[], by simp [GCSDriver.Create, h, hk], rfl⟩
  | ok K =>
    have hcd := createDir_no_file_creation (filepathJoin BucketMount r.Name) env.dirLstat
      env.mkdirAll
    rcases hd : createDir (filepathJoin BucketMount r.Name) env.dirLstat env.mkdirAll
      with ⟨err, ev2⟩
    rw [hd] at hcd
    simp only at hcd
    cases err with
    | some e => exact ⟨ev2, by simp [GCSDriver.Create, h, hk, hd], hcd⟩
    | none =>
      cases hdbg : optLookup r.Options "debug" with
      | none => exact ⟨ev2, by simp [GCSDriver.Create, h, hk, hd, hdbg], hcd⟩
      | some dbg =>
        cases ha : strconvAtoi dbg with
        | none => exact ⟨ev2, by simp [GCSDriver.Create, h, hk, hd, hdbg, ha], hcd⟩
        | some t =>
          refine ⟨ev2 ++ (debugVolume (newVolume r K) t env.debug).2,
            by simp [GCSDriver.Create, h, hk, hd, hdbg, ha], ?_⟩
          rw [List.any_append, hcd, debugVolume_no_file_creation]
          rfl

theorem Create_fresh_keyFile (d : Registry) (r : CreateRequest) (env : CreateEnv)
    (K : String) (ev : List Event) (h : lookupVol d r.Name = none)
    (hk : resolveKey r env = (Except.ok K, ev)) :
    ∀ v, lookupVol (GCSDriver.Create d r env).volumes r.Name = some v → v = newVolume r K := by
  intro v hv
  rcases hd : createDir (filepathJoin BucketMount r.Name) env.dirLstat env.mkdirAll
    with ⟨err, ev2⟩
  cases err with
  | some e =>
    rw [(Create_of_dir_error d r env K e ev ev2 h hk hd).1, h] at hv
    cases hv
  | none =>
    rw [(Create_of_dir_ok d r env K ev ev2 h hk hd).2.1] at hv
    cases hv
    rfl

theorem dropWhile_to_slash (l b : List Char) (h : ∀ c ∈ l, c ≠ '/') :
    (l ++ '/' :: b).dropWhile (fun c => c ≠ '/') = '/' :: b := by
  induction l with
  | nil => simp [List.dropWhile]
  | cons x xs ih =>
    have hx : x ≠ '/' := h x (by simp)
    simp only [List.cons_append, List.dropWhile, ne_eq, hx, not_false_eq_true, decide_True]
    exact ih (fun c hc => h c (by simp [hc]))

/-- A file named by a slash-free name inside the key storage lies directly in it. -/
theorem filepathDir_keyStorage (rnd : String) (h : ∀ c ∈ rnd.data, c ≠ '/') :
    filepathDir (KeyStorage ++ "/" ++ rnd) = KeyStorage := by
  unfold filepathDir dirPart
  have hdata : (KeyStorage ++ "/" ++ rnd).data = "/tmp/keys".data ++ '/' :: rnd.data := by
    simp [KeyStorage, String.data_append]
  rw [hdata, List.reverse_append, List.reverse_cons, List.append_assoc]
  rw [List.singleton_append,
    dropWhile_to_slash rnd.data.reverse _ (fun c hc => h c (by simpa using hc))]
  decide

/-- C12. Credential resolution by cases, for a `Create` of an unregistered name. The
key file stored in the volume is the resolved one, and nothing after the resolution
creates or writes a file. (a) Without a key option the key file is filepath.Join of the
key mount and the name followed by .json, with no Lstat and no file creation. (b) With
key k and a file found by Lstat at filepath.Join of the key mount and k, the key file is
that path and nothing is created. (c) Otherwise a temporary file is created in the key
storage, k is written to it, and its path is the key file (directly under the key
storage, its random name holding no slash); a failure to create, write or close makes
`Create` return an error and register nothing. -/
theorem credential_resolution (d : Registry) (n : String) (opts : Options) (env : CreateEnv)
    (h : lookupVol d n = none) :
    (∀ K ev, resolveKey ⟨n, opts⟩ env = (Except.ok K, ev) →
      ∀ v, lookupVol (GCSDriver.Create d ⟨n, opts⟩ env).volumes n = some v → v.keyFile = K) ∧
    (∃ rest, (GCSDriver.Create d ⟨n, opts⟩ env).events =
        (resolveKey ⟨n, opts⟩ env).2 ++ rest ∧ rest.any isFileCreation = false) ∧
    (optLookup opts "key" = none →
      resolveKey ⟨n, opts⟩ env = (Except.ok (filepathJoin KeyMount (n ++ ".json")), [])) ∧
    (∀ k isDir, optLookup opts "key" = some k → env.keyLstat = LstatResult.found isDir →
      resolveKey ⟨n, opts⟩ env =
        (Except.ok (filepathJoin KeyMount k), [Event.lstat (filepathJoin KeyMount k)])) ∧
    (∀ k, optLookup opts "key" = some k →
      (∀ isDir, env.keyLstat ≠ LstatResult.found isDir) →
      (∀ rnd, env.key.tempFile = Except.ok rnd → env.key.write = none →
        env.key.close = none →
          resolveKey ⟨n, opts⟩ env =
            (Except.ok (KeyStorage ++ "/" ++ rnd),
              [Event.lstat (filepathJoin KeyMount k), Event.tempFile KeyStorage "",
                Event.write (KeyStorage ++ "/" ++ rnd) k,
                Event.close (KeyStorage ++ "/" ++ rnd)]) ∧
          ((∀ c ∈ rnd.data, c ≠ '/') →
            filepathDir (KeyStorage ++ "/" ++ rnd) = KeyStorage)) ∧
      (((∃ e, env.key.tempFile = Except.error e) ∨ env.key.write ≠ none ∨
          env.key.close ≠ none) →
        (GCSDriver.Create d ⟨n, opts⟩ env).ret ≠ none ∧
        (GCSDriver.Create d ⟨n, opts⟩ env).volumes = d)) := by
  refine ⟨?_, Create_fresh_events d ⟨n, opts⟩ env h, ?_, ?_, ?_⟩
  · intro K ev hk v hv
    rw [Create_fresh_keyFile d ⟨n, opts⟩ env K ev h hk v hv]
    rfl
  · intro hkey
    simp [resolveKey, hkey]
  · intro k isDir hkey hl
    simp [resolveKey, hkey, hl]
  · intro k hkey hl
    have hres : resolveKey ⟨n, opts⟩ env =
        ((createKeyFile k env.key).1,
          Event.lstat (filepathJoin KeyMount k) :: (createKeyFile k env.key).2) := by
      cases hks : env.keyLstat with
      | found b => exact absurd hks (hl b)
      | notExist e => simp [resolveKey, hkey, hks]
      | failed e => simp [resolveKey, hkey, hks]
    constructor
    · intro rnd ht hw hc
      refine ⟨?_, filepathDir_keyStorage rnd⟩
      rw [hres]
      simp [createKeyFile, ht, hw, hc]
    · intro hfail
      have herr : ∃ e, (createKeyFile k env.key).1 = Except.error e := by
        unfold createKeyFile
        cases ht : env.key.tempFile with
        | error e => exact ⟨_, rfl⟩
        | ok rnd =>
          cases hw : env.key.write with
          | some e => exact ⟨_, rfl⟩
          | none =>
            cases hc : env.key.close with
            | some e => exact ⟨_, rfl⟩
            | none =>
              rcases hfail with ⟨e, he⟩ | hne | hne
              · rw [ht] at he; cases he
              · exact absurd hw hne
              · exact absurd hc hne
      obtain ⟨e, he⟩ := herr
      rw [he] at hres
      have := Create_of_key_error d ⟨n, opts⟩ env e _ h hres
      exact ⟨by rw [this.2.1]; simp, this.1⟩

/-- C12 at an inline key: no file of that name under the key mount, so the key is
written to a new file of the key storage. -/
theorem credential_resolution_witness :
    lookupVol NewGCSDriver "data" = none ∧
    optLookup flagsRequest.Options "key" = some "secret" ∧
    (∀ isDir, inlineEnv.keyLstat ≠ LstatResult.found isDir) ∧
    inlineEnv.key.tempFile = Except.ok "123" ∧
    (resolveKey flagsRequest inlineEnv =
        (Except.ok (KeyStorage ++ "/" ++ "123"),
          [Event.lstat (filepathJoin KeyMount "secret"), Event.tempFile KeyStorage "",
            Event.write (KeyStorage ++ "/" ++ "123") "secret",
            Event.close (KeyStorage ++ "/" ++ "123")]) ∧
      ((∀ c ∈ "123".data, c ≠ '/') →
        filepathDir (KeyStorage ++ "/" ++ "123") = KeyStorage)) :=
  ⟨by decide, by decide, by simp [inlineEnv], rfl,
    ((credential_resolution NewGCSDriver "data" flagsRequest.Options inlineEnv
      (by decide)).2.2.2.2 "secret" (by decide) (by simp [inlineEnv])).1 "123" rfl rfl rfl⟩

/-! ## Remove -/

/-- C13. `Remove` is lenient and never fails: it returns no error; on a name that is
not registered it leaves the registry unchanged and deletes no file; on a registered
name with count above 1 the only change is that the count of the name goes down by one
(no file is deleted); and it never changes the entry of another name. -/
theorem remove_lenient (d : Registry) (n : String) (rm : Option String) :
    (GCSDriver.Remove d n rm).ret = none ∧
    (lookupVol d n = none →
      (GCSDriver.Remove d n rm).volumes = d ∧ (GCSDriver.Remove d n rm).events = []) ∧
    (∀ v, lookupVol d n = some v → v.count > 1 →
      lookupVol (GCSDriver.Remove d n rm).volumes n = some { v with count := v.count - 1 } ∧
      (GCSDriver.Remove d n rm).volumes.map Prod.fst = d.map Prod.fst ∧
      (GCSDriver.Remove d n rm).events = []) ∧
    (∀ m, m ≠ n → lookupVol (GCSDriver.Remove d n rm).volumes m = lookupVol d m) := by
  refine ⟨?_, ?_, ?_, ?_⟩
  · unfold GCSDriver.Remove
    cases lookupVol d n with
    | none => rfl
    | some v =>
      by_cases hc : v.count - 1 = 0
      · by_cases hk : filepathDir v.keyFile = KeyStorage <;> simp [hc, hk]
      · simp [hc]
  · intro h
    simp [GCSDriver.Remove, h]
  · intro v h hc
    have h0 : ¬ v.count - 1 = 0 := by omega
    have hv : (GCSDriver.Remove d n rm).volumes =
        modifyVol (fun v => { v with count := v.count - 1 }) n d := by
      rw [Remove_volumes]; simp [h, h0]
    refine ⟨?_, by rw [hv, modifyVol_keys], by simp [GCSDriver.Remove, h, h0]⟩
    rw [hv, lookupVol_modifyVol]; simp [h]
  · intro m hm
    rw [Remove_volumes]
    cases hv : lookupVol d n with
    | none => rfl
    | some v =>
      by_cases hc : v.count - 1 = 0
      · simp [hc, lookupVol_deleteVol, hm]
      · simp [hc, lookupVol_modifyVol, hm]

/-- C13 at a volume with two holders and at a missing name. -/
theorem remove_lenient_witness :
    (lookupVol sharedRegistry "a" = some { demoVolume with count := 2, mounted := true } ∧
      ({ demoVolume with count := 2, mounted := true } : GCSVolume).count > 1 ∧
      lookupVol (GCSDriver.Remove sharedRegistry "a" none).volumes "a" =
        some { demoVolume with count := 2 - 1, mounted := true }) ∧
    (lookupVol sharedRegistry "missing" = none ∧
      (GCSDriver.Remove sharedRegistry "missing" none).volumes = sharedRegistry ∧
      (GCSDriver.Remove sharedRegistry "missing" none).events = []) :=
  ⟨⟨by decide, by decide,
      ((remove_lenient sharedRegistry "a" none).2.2.1
        { demoVolume with count := 2, mounted := true } (by decide) (by decide)).1⟩,
    ⟨by decide, (remove_lenient sharedRegistry "missing" none).2.1 (by decide)⟩⟩

/-! ## Failure of the external commands -/

theorem hasSubstr_mid (a t b : String) : hasSubstr (a ++ t ++ b) t :=
  ⟨a.data, b.data, by simp [String.data_append]⟩

theorem hasSubstr_end (a t : String) : hasSubstr (a ++ t) t :=
  ⟨a.data, [], by simp [String.data_append]⟩

/-- C14. External failure is atomic. For a registered name that is not mounted, a mount
helper that exits non-zero makes `Mount` return no path and an error that contains the
bucket name and the combined output, with the registry unchanged, so that a later
`Mount` runs the helper again. For a registered name with count at most 1, an unmount
utility that exits non-zero makes `Unmount` return an error that contains the bucket
name and the output and is not the unknown-volume error, with the registry unchanged. -/
theorem external_failure_atomic (d : Registry) (n : String) (v : GCSVolume)
    (ex : ExecResult) (e : String) (h : lookupVol d n = some v) (he : ex.err = some e) :
    (v.mounted = false →
      (∃ msg, (GCSDriver.Mount d n ex).ret = Except.error msg ∧
        hasSubstr msg v.bucket ∧ hasSubstr msg ex.out) ∧
      (GCSDriver.Mount d n ex).volumes = d ∧
      lookupVol (GCSDriver.Mount d n ex).volumes n = some v ∧
      (∀ ex2, (GCSDriver.Mount (GCSDriver.Mount d n ex).volumes n ex2).events =
        [Event.run (mountArgs v) ex2.err.isNone])) ∧
    (v.count ≤ 1 →
      (∃ msg, (GCSDriver.Unmount d n ex).ret = some msg ∧
        hasSubstr msg v.bucket ∧ hasSubstr msg ex.out) ∧
      (GCSDriver.Unmount d n ex).ret ≠ some ("unknown volume " ++ n) ∧
      (GCSDriver.Unmount d n ex).volumes = d ∧
      lookupVol (GCSDriver.Unmount d n ex).volumes n = some v) := by
  constructor
  · intro hm
    have hv : (GCSDriver.Mount d n ex).volumes = d := by
      simp [GCSDriver.Mount, h, hm, he]
    refine ⟨⟨"error (" ++ e ++ ") mounting bucket " ++ v.bucket ++ ":\n" ++ ex.out,
      by simp [GCSDriver.Mount, h, hm, he], ?_, hasSubstr_end _ _⟩, hv, by rw [hv]; exact h, ?_⟩
    · rw [String.append_assoc _ ":\n" ex.out]
      exact hasSubstr_mid _ _ _
    · intro ex2
      rw [hv]
      unfold GCSDriver.Mount
      rw [h]
      cases he2 : ex2.err <;> simp [hm, he2]
  · intro hc
    have hnc : ¬ v.count > 1 := by omega
    have hv : (GCSDriver.Unmount d n ex).volumes = d := by
      simp [GCSDriver.Unmount, h, hnc, he]
    have hr : (GCSDriver.Unmount d n ex).ret =
        some ("error (" ++ e ++ ") un-mounting bucket " ++ v.bucket ++ ":\n" ++ ex.out) := by
      simp [GCSDriver.Unmount, h, hnc, he]
    refine ⟨⟨_, hr, ?_, hasSubstr_end _ _⟩, ?_, hv, by rw [hv]; exact h⟩
    · rw [String.append_assoc _ ":\n" ex.out]
      exact hasSubstr_mid _ _ _
    · rw [hr]
      intro hcontra
      have := congrArg (fun x => x.map String.data) hcontra
      simp [String.data_append] at this

/-- C14 at an unmounted volume with one holder and a command that exits with status
one. -/
theorem external_failure_atomic_witness :
    lookupVol demoRegistry "a" = some demoVolume ∧ failExec.err = some "exit status 1" ∧
    demoVolume.mounted = false ∧ demoVolume.count ≤ 1 ∧
    (GCSDriver.Mount demoRegistry "a" failExec).volumes = demoRegistry ∧
    (GCSDriver.Unmount demoRegistry "a" failExec).ret ≠ some ("unknown volume " ++ "a") ∧
    (GCSDriver.Unmount demoRegistry "a" failExec).volumes = demoRegistry :=
  ⟨by decide, rfl, by decide, by decide,
    ((external_failure_atomic demoRegistry "a" demoVolume failExec "exit status 1"
      (by decide) rfl).1 (by decide)).2.1,
    ((external_failure_atomic demoRegistry "a" demoVolume failExec "exit status 1"
      (by decide) rfl).2 (by decide)).2.1,
    ((external_failure_atomic demoRegistry "a" demoVolume failExec "exit status 1"
      (by decide) rfl).2 (by decide)).2.2.1⟩

/-! ## List -/

theorem lookupVol_eq_none_iff (d : Registry) (n : String) :
    lookupVol d n = none ↔ n ∉ d.map Prod.fst := by
  induction d with
  | nil => simp [lookupVol]
  | cons kv rest ih =>
    obtain ⟨k, v⟩ := kv
    by_cases hk : k = n
    · simp [lookupVol, hk]
    · have hnk : ¬ n = k := fun h => hk h.symm
      simp [lookupVol, hk, hnk, ih]

theorem lookupVol_of_mem (d : Registry) (hd : (d.map Prod.fst).Nodup) (k : String)
    (v : GCSVolume) (h : (k, v) ∈ d) : lookupVol d k = some v := by
  induction d with
  | nil => simp at h
  | cons kv rest ih =>
    obtain ⟨k0, v0⟩ := kv
    simp only [List.map_cons, List.nodup_cons] at hd
    rcases List.mem_cons.1 h with h1 | h1
    · cases h1; simp [lookupVol]
    · have hne : ¬ k0 = k := by
        intro e
        apply hd.1
        rw [e]
        exact List.mem_map.2 ⟨(k, v), h1, rfl⟩
      simp [lookupVol, hne, ih hd.2 h1]

theorem filter_name_of_lookup (d : Registry) (hd : (d.map Prod.fst).Nodup) (n : String)
    (v : GCSVolume) (h : lookupVol d n = some v) :
    d.filter (fun kv => decide (kv.1 = n)) = [(n, v)] := by
  induction d with
  | nil => simp [lookupVol] at h
  | cons kv rest ih =>
    obtain ⟨k0, v0⟩ := kv
    simp only [List.map_cons, List.nodup_cons] at hd
    by_cases hk : k0 = n
    · subst hk
      simp only [lookupVol, if_true, Option.some.injEq] at h
      subst h
      have hnone : ∀ kv ∈ rest, ¬ (decide (kv.1 = k0) = true) := by
        intro kv hkv hdec
        apply hd.1
        have : kv.1 = k0 := by simpa using hdec
        rw [← this]
        exact List.mem_map.2 ⟨kv, hkv, rfl⟩
      simp [List.filter, List.filter_eq_nil_iff.2 hnone]
    · simp only [lookupVol, hk, if_false] at h
      simp [List.filter, hk, ih hd.2 h]

theorem step_keys_nodup (d : Registry) (c : Call) (hd : (d.map Prod.fst).Nodup) :
    ((step d c).1.map Prod.fst).Nodup := by
  cases c with
  | list => exact hd
  | get n => simp only [step, Get_volumes]; exact hd
  | path n => simp only [step, Path_volumes]; exact hd
  | mount n ex =>
    rcases Mount_volumes d n ex with e | e <;> simp only [step, e, modifyVol_keys] <;> exact hd
  | unmount n ex =>
    rcases Unmount_volumes d n ex with e | e <;> simp only [step, e, modifyVol_keys] <;>
      exact hd
  | remove n rm =>
    simp only [step, Remove_volumes]
    cases lookupVol d n with
    | none => exact hd
    | some v =>
      by_cases hc : v.count - 1 = 0
      · simp only [hc, if_true]
        unfold deleteVol
        exact hd.sublist (List.Sublist.map _ (List.filter_sublist d))
      · simp only [hc, if_false, modifyVol_keys]; exact hd
  | create r env =>
    rcases Create_cases d r env with ⟨v, _, e, _, _⟩ | ⟨_, e, _⟩ | ⟨hn, kf, e, _, _⟩
    · simp only [step, e, modifyVol_keys]; exact hd
    · simp only [step, e]; exact hd
    · simp only [step, e, List.map_append, List.map_cons, List.map_nil]
      rw [List.nodup_append]
      refine ⟨hd, by simp, ?_⟩
      intro a ha hb
      have : a = r.Name := by simpa using hb
      subst this
      exact (lookupVol_eq_none_iff d r.Name).1 hn ha

theorem run_keys_nodup (calls : List Call) :
    ∀ d : Registry, (d.map Prod.fst).Nodup → ((run d calls).map Prod.fst).Nodup := by
  induction calls with
  | nil => intro d hd; exact hd
  | cons c cs ih => intro d hd; exact ih _ (step_keys_nodup d c hd)

/-- C15. `List` is complete and exact. Registries reached from the empty one hold every
name once; and for every registry that holds every name once, `List` returns no error
and a list with as many entries as registered volumes, whose names are the registered
names, in which the entries of a registered name are exactly one, made of the name and
its path, and in which every entry belongs to a registered volume; the registry is
unchanged and nothing external is called. -/
theorem list_exact :
    (∀ calls : List Call, ((run NewGCSDriver calls).map Prod.fst).Nodup) ∧
    (∀ d : Registry, (d.map Prod.fst).Nodup →
      ∃ L, (GCSDriver.List d).ret = Except.ok L ∧
        L.length = d.length ∧
        L.map Prod.fst = d.map Prod.fst ∧
        (∀ n v, lookupVol d n = some v →
          L.filter (fun e => decide (e.1 = n)) = [(n, v.path)]) ∧
        (∀ e ∈ L, ∃ v, lookupVol d e.1 = some v ∧ e.2 = v.path) ∧
        (GCSDriver.List d).volumes = d ∧ (GCSDriver.List d).events = []) := by
  constructor
  · intro calls
    exact run_keys_nodup calls NewGCSDriver (by simp [NewGCSDriver])
  · intro d hd
    refine ⟨d.map (fun kv : String × GCSVolume => (kv.1, kv.2.path)), rfl, by simp, by simp,
      ?_, ?_, rfl, rfl⟩
    · intro n v h
      rw [List.filter_map]
      have hf : (fun e : String × String => decide (e.1 = n)) ∘
          (fun kv : String × GCSVolume => (kv.1, kv.2.path)) =
          fun kv => decide (kv.1 = n) := rfl
      rw [hf, filter_name_of_lookup d hd n v h]
      rfl
    · intro e he
      obtain ⟨⟨k, v⟩, hkv, rfl⟩ := List.mem_map.1 he
      exact ⟨v, lookupVol_of_mem d hd k v hkv, rfl⟩

/-- C15 at a registry of two volumes. -/
theorem list_exact_witness :
    (twoRegistry.map Prod.fst).Nodup ∧
    ∃ L, (GCSDriver.List twoRegistry).ret = Except.ok L ∧
      L.length = twoRegistry.length ∧
      L.map Prod.fst = twoRegistry.map Prod.fst ∧
      (∀ n v, lookupVol twoRegistry n = some v →
        L.filter (fun e => decide (e.1 = n)) = [(n, v.path)]) ∧
      (∀ e ∈ L, ∃ v, lookupVol twoRegistry e.1 = some v ∧ e.2 = v.path) ∧
      (GCSDriver.List twoRegistry).volumes = twoRegistry ∧
      (GCSDriver.List twoRegistry).events = [] :=
  ⟨by decide, list_exact.2 twoRegistry (by decide)⟩

/-! ## The mount directory -/

theorem resolveKey_events (r : CreateRequest) (env : CreateEnv) :
    (resolveKey r env).2.any isMkdir = false ∧
      (resolveKey r env).2.any isHelperRun = false := by
  unfold resolveKey
  cases optLookup r.Options "key" with
  | none => simp
  | some k =>
    cases env.keyLstat <;> simp only [createKeyFile] <;>
      cases env.key.tempFile <;> cases env.key.write <;> cases env.key.close <;>
      simp [isMkdir, isHelperRun]

theorem debugVolume_no_mkdir (v : GCSVolume) (t : Int) (env : DebugEnv) :
    (debugVolume v t env).2.any isMkdir = false := by
  unfold debugVolume
  cases env.start <;> simp [isMkdir]

/-- C16. Mount directory conflict, for a `Create` of an unregistered name whose
credential resolution succeeds. If Lstat finds the mount path and it is not a directory,
`Create` returns the error that the path already exists and is not a directory, creates
no directory and leaves the registry unchanged. If the path does not exist, MkdirAll is
called on it, and a failure of MkdirAll is returned as the error with the registry
unchanged. If the path exists and is a directory, no directory is created and the
volume is registered with count 1 and mounted false. -/
theorem mount_dir_conflict (d : Registry) (n : String) (opts : Options) (env : CreateEnv)
    (K : String) (ev : List Event) (h : lookupVol d n = none)
    (hk : resolveKey ⟨n, opts⟩ env = (Except.ok K, ev)) :
    (env.dirLstat = LstatResult.found false →
      (GCSDriver.Create d ⟨n, opts⟩ env).ret =
        some (filepathJoin BucketMount n ++ " already exists and is not a directory") ∧
      (GCSDriver.Create d ⟨n, opts⟩ env).events.any isMkdir = false ∧
      (GCSDriver.Create d ⟨n, opts⟩ env).volumes = d) ∧
    (∀ e, env.dirLstat = LstatResult.notExist e →
      Event.mkdirAll (filepathJoin BucketMount n) ∈ (GCSDriver.Create d ⟨n, opts⟩ env).events ∧
      (∀ err, env.mkdirAll = some err →
        (GCSDriver.Create d ⟨n, opts⟩ env).ret = some err ∧
        (GCSDriver.Create d ⟨n, opts⟩ env).volumes = d)) ∧
    (env.dirLstat = LstatResult.found true →
      (GCSDriver.Create d ⟨n, opts⟩ env).events.any isMkdir = false ∧
      ∃ v, lookupVol (GCSDriver.Create d ⟨n, opts⟩ env).volumes n = some v ∧
        v.count = 1 ∧ v.mounted = false) := by
  have hev : ev.any isMkdir = false := by
    have := (resolveKey_events ⟨n, opts⟩ env).1
    rw [hk] at this
    exact this
  refine ⟨?_, ?_, ?_⟩
  · intro hl
    have hd : createDir (filepathJoin BucketMount n) env.dirLstat env.mkdirAll =
        (some (filepathJoin BucketMount n ++ " already exists and is not a directory"),
          [Event.lstat (filepathJoin BucketMount n)]) := by
      simp [createDir, hl]
    obtain ⟨hv, hr, he⟩ := Create_of_dir_error d ⟨n, opts⟩ env K _ ev _ h hk hd
    refine ⟨hr, ?_, hv⟩
    rw [he, List.any_append, hev]
    simp [isMkdir]
  · intro e hl
    constructor
    · cases hm : env.mkdirAll with
      | some err =>
        have hd : createDir (filepathJoin BucketMount n) env.dirLstat env.mkdirAll =
            (some err, [Event.lstat (filepathJoin BucketMount n),
              Event.mkdirAll (filepathJoin BucketMount n)]) := by
          simp [createDir, hl, hm]
        rw [(Create_of_dir_error d ⟨n, opts⟩ env K _ ev _ h hk hd).2.2]
        simp
      | none =>
        cases hdbg : optLookup opts "debug" with
        | none => simp [GCSDriver.Create, h, hk, createDir, hl, hm, hdbg]
        | some dbg =>
          cases ha : strconvAtoi dbg <;>
            simp [GCSDriver.Create, h, hk, createDir, hl, hm, hdbg, ha]
    · intro err hm
      have hd : createDir (filepathJoin BucketMount n) env.dirLstat env.mkdirAll =
          (some err, [Event.lstat (filepathJoin BucketMount n),
            Event.mkdirAll (filepathJoin BucketMount n)]) := by
        simp [createDir, hl, hm]
      obtain ⟨hv, hr, _⟩ := Create_of_dir_error d ⟨n, opts⟩ env K _ ev _ h hk hd
      exact ⟨hr, hv⟩
  · intro hl
    have hd : createDir (filepathJoin BucketMount n) env.dirLstat env.mkdirAll =
        (none, [Event.lstat (filepathJoin BucketMount n)]) := by
      simp [createDir, hl]
    constructor
    · cases hdbg : optLookup opts "debug" with
      | none => simp [GCSDriver.Create, h, hk, hd, hdbg, hev, isMkdir]
      | some dbg =>
        cases ha : strconvAtoi dbg with
        | none => simp [GCSDriver.Create, h, hk, hd, hdbg, ha, hev, isMkdir]
        | some t =>
          have hdv := debugVolume_no_mkdir (newVolume ⟨n, opts⟩ K) t env.debug
          simp only [GCSDriver.Create, h, hk, hd, hdbg, ha, List.any_append, hev, hdv]
          simp [isMkdir]
    · exact ⟨_, (Create_of_dir_ok d ⟨n, opts⟩ env K ev _ h hk hd).2.1, rfl, rfl⟩

/-- C16 at a mount path that exists as a directory. -/
theorem mount_dir_conflict_witness :
    lookupVol NewGCSDriver "a" = none ∧
    resolveKey ⟨"a", []⟩ okEnv = (Except.ok "/mnt/keys/a.json", []) ∧
    okEnv.dirLstat = LstatResult.found true ∧
    ((GCSDriver.Create NewGCSDriver ⟨"a", []⟩ okEnv).events.any isMkdir = false ∧
      ∃ v, lookupVol (GCSDriver.Create NewGCSDriver ⟨"a", []⟩ okEnv).volumes "a" = some v ∧
        v.count = 1 ∧ v.mounted = false) :=
  ⟨by decide, by rfl, rfl,
    (mount_dir_conflict NewGCSDriver "a" [] okEnv "/mnt/keys/a.json" [] (by decide)
      (by rfl)).2.2 rfl⟩

/-! ## The debug path -/

theorem createDir_no_helper (p : String) (l : LstatResult) (mk : Option String) :
    (createDir p l mk).2.any isHelperRun = false := by
  unfold createDir
  cases l with
  | notExist e => cases mk <;> simp [isHelperRun]
  | failed e => simp [isHelperRun]
  | found isDir => cases isDir <;> simp [isHelperRun]

/-- C17. The debug path never leaves a volume mounted: after a `Create` of an
unregistered name with a debug option, whatever the outcomes of the external calls, the
name, if registered, has mounted false, and the entries of all other names are
unchanged; and whenever `debugVolume` got the helper process started, its events end
with the kill of the process followed by the run of the unmount utility on the mount
path, while a helper that failed to start is followed by nothing. -/
theorem debug_never_mounted (d : Registry) (n : String) (opts : Options) (env : CreateEnv)
    (dbg : String) (h : lookupVol d n = none) (_hdbg : optLookup opts "debug" = some dbg) :
    (∀ v, lookupVol (GCSDriver.Create d ⟨n, opts⟩ env).volumes n = some v →
      v.mounted = false) ∧
    (∀ m, m ≠ n → lookupVol (GCSDriver.Create d ⟨n, opts⟩ env).volumes m = lookupVol d m) ∧
    (∀ (v : GCSVolume) (t : Int) (denv : DebugEnv),
      (Event.start (debugArgs v) true ∈ (debugVolume v t denv).2 →
        ∃ pre, (debugVolume v t denv).2 =
          pre ++ [Event.kill, Event.run (unmountArgs v.path) denv.unmount.err.isNone]) ∧
      (Event.start (debugArgs v) true ∉ (debugVolume v t denv).2 →
        (debugVolume v t denv).2 = [Event.start (debugArgs v) false])) := by
  refine ⟨?_, ?_, ?_⟩
  · intro v hv
    rcases Create_cases d ⟨n, opts⟩ env with ⟨w, hw, _⟩ | ⟨_, e, _⟩ | ⟨_, kf, e, _, _⟩
    · simp only at hw; rw [h] at hw; cases hw
    · rw [e, h] at hv; cases hv
    · rw [e] at hv
      simp only at hv
      rw [lookupVol_append d n n _ h] at hv
      simp at hv
      rw [← hv]; rfl
  · intro m hm
    rcases Create_cases d ⟨n, opts⟩ env with ⟨w, hw, _⟩ | ⟨_, e, _⟩ | ⟨_, kf, e, _, _⟩
    · simp only at hw; rw [h] at hw; cases hw
    · rw [e]
    · rw [e]
      simp only
      rw [lookupVol_append d n m _ h]
      simp [hm]
  · intro v t denv
    cases hs : denv.start with
    | none =>
      constructor
      · intro _
        exact ⟨[Event.start (debugArgs v) true, Event.sleep (wrapInt64 (t * 1000000000)),
          Event.lstat v.path,
          Event.readDir v.path], by simp [debugVolume, hs]⟩
      · intro hnot
        exact absurd (by simp [debugVolume, hs]) hnot
    | some e =>
      constructor
      · intro hmem
        simp [debugVolume, hs] at hmem
      · intro _
        simp [debugVolume, hs]

/-- C17 at a debug session of 5 seconds in which every call succeeds. -/
theorem debug_never_mounted_witness :
    lookupVol NewGCSDriver "dbg" = none ∧
    optLookup debugRequest.Options "debug" = some "5" ∧
    (∀ v, lookupVol (GCSDriver.Create NewGCSDriver debugRequest okEnv).volumes "dbg" = some v →
      v.mounted = false) ∧
    (lookupVol (GCSDriver.Create NewGCSDriver debugRequest okEnv).volumes "dbg").isSome = true :=
  ⟨by decide, by decide,
    (debug_never_mounted NewGCSDriver "dbg" debugRequest.Options okEnv "5" (by decide)
      (by decide)).1,
    by decide⟩

/-- C18. `Create` with a debug option always reports an error yet registers the volume,
for an unregistered name whose credential resolution and directory creation succeed.
When strconv.Atoi rejects the value the error is the debug-timeout message and no
helper is started; otherwise the error is debug, a colon and a newline followed by the
session report. In both cases the name is registered afterwards with count 1 and
mounted false, `Get` of it succeeds, and one `Remove` deregisters it. -/
theorem debug_create_errors_but_registers (d : Registry) (n : String) (opts : Options)
    (env : CreateEnv) (dbg K : String) (ev ev2 : List Event)
    (h : lookupVol d n = none) (hdbg : optLookup opts "debug" = some dbg)
    (hk : resolveKey ⟨n, opts⟩ env = (Except.ok K, ev))
    (hd : createDir (filepathJoin BucketMount n) env.dirLstat env.mkdirAll = (none, ev2)) :
    (GCSDriver.Create d ⟨n, opts⟩ env).ret ≠ none ∧
    (strconvAtoi dbg = none →
      (GCSDriver.Create d ⟨n, opts⟩ env).ret =
        some ("debug timeout (" ++ dbg ++ ") is not an integer") ∧
      (GCSDriver.Create d ⟨n, opts⟩ env).events = ev ++ ev2 ∧
      (GCSDriver.Create d ⟨n, opts⟩ env).events.any isHelperRun = false) ∧
    (∀ t, strconvAtoi dbg = some t →
      (GCSDriver.Create d ⟨n, opts⟩ env).ret =
        some ("debug:\n" ++ (debugVolume (newVolume ⟨n, opts⟩ K) t env.debug).1) ∧
      (GCSDriver.Create d ⟨n, opts⟩ env).events =
        ev ++ ev2 ++ (debugVolume (newVolume ⟨n, opts⟩ K) t env.debug).2) ∧
    (∃ v, lookupVol (GCSDriver.Create d ⟨n, opts⟩ env).volumes n = some v ∧
      v.count = 1 ∧ v.mounted = false) ∧
    (GCSDriver.Get (GCSDriver.Create d ⟨n, opts⟩ env).volumes n).ret =
      Except.ok (n, filepathJoin BucketMount n) ∧
    (∀ rm, lookupVol
      (GCSDriver.Remove (GCSDriver.Create d ⟨n, opts⟩ env).volumes n rm).volumes n = none) := by
  have hl := (Create_of_dir_ok d ⟨n, opts⟩ env K ev ev2 h hk hd).2.1
  simp only at hl
  have hev : ev.any isHelperRun = false := by
    have := (resolveKey_events ⟨n, opts⟩ env).2
    rw [hk] at this
    exact this
  have hev2 : ev2.any isHelperRun = false := by
    have := createDir_no_helper (filepathJoin BucketMount n) env.dirLstat env.mkdirAll
    rw [hd] at this
    exact this
  refine ⟨?_, ?_, ?_, ⟨_, hl, rfl, rfl⟩, ?_, ?_⟩
  · cases ha : strconvAtoi dbg <;> simp [GCSDriver.Create, h, hk, hd, hdbg, ha]
  · intro ha
    have he : (GCSDriver.Create d ⟨n, opts⟩ env).events = ev ++ ev2 := by
      simp [GCSDriver.Create, h, hk, hd, hdbg, ha]
    refine ⟨by simp [GCSDriver.Create, h, hk, hd, hdbg, ha], he, ?_⟩
    rw [he, List.any_append, hev, hev2]
    rfl
  · intro t ha
    exact ⟨by simp [GCSDriver.Create, h, hk, hd, hdbg, ha],
      by simp [GCSDriver.Create, h, hk, hd, hdbg, ha]⟩
  · unfold GCSDriver.Get
    rw [hl]
    rfl
  · intro rm
    rw [Remove_volumes, hl]
    have h0 : (newVolume ⟨n, opts⟩ K).count - 1 = 0 := by simp [newVolume]
    simp only [h0, if_true]
    rw [lookupVol_deleteVol]
    simp

/-- C18 at a debug value that is an integer and at one that is not. -/
theorem debug_create_errors_but_registers_witness :
    lookupVol NewGCSDriver "dbg" = none ∧
    optLookup debugRequest.Options "debug" = some "5" ∧
    optLookup badDebugRequest.Options "debug" = some "soon" ∧
    strconvAtoi "5" = some 5 ∧ strconvAtoi "soon" = none ∧
    (GCSDriver.Create NewGCSDriver debugRequest okEnv).ret ≠ none ∧
    (∃ v, lookupVol (GCSDriver.Create NewGCSDriver debugRequest okEnv).volumes "dbg" = some v ∧
      v.count = 1 ∧ v.mounted = false) ∧
    (∀ rm, lookupVol (GCSDriver.Remove
      (GCSDriver.Create NewGCSDriver debugRequest okEnv).volumes "dbg" rm).volumes "dbg" =
        none) ∧
    (GCSDriver.Create NewGCSDriver badDebugRequest okEnv).ret =
      some ("debug timeout (" ++ "soon" ++ ") is not an integer") :=
  ⟨by decide, by decide, by decide, by decide, by decide,
    (debug_create_errors_but_registers NewGCSDriver "dbg" debugRequest.Options okEnv "5"
      "/mnt/keys/dbg.json" [] [Event.lstat "/mnt/buckets/dbg"] (by decide) (by decide)
      (by rfl) (by rfl)).1,
    (debug_create_errors_but_registers NewGCSDriver "dbg" debugRequest.Options okEnv "5"
      "/mnt/keys/dbg.json" [] [Event.lstat "/mnt/buckets/dbg"] (by decide) (by decide)
      (by rfl) (by rfl)).2.2.2.1,
    (debug_create_errors_but_registers NewGCSDriver "dbg" debugRequest.Options okEnv "5"
      "/mnt/keys/dbg.json" [] [Event.lstat "/mnt/buckets/dbg"] (by decide) (by decide)
      (by rfl) (by rfl)).2.2.2.2.2,
    ((debug_create_errors_but_registers NewGCSDriver "dbg" badDebugRequest.Options okEnv
      "soon" "/mnt/keys/dbg.json" [] [Event.lstat "/mnt/buckets/dbg"] (by decide) (by decide)
      (by rfl) (by rfl)).2.1 (by decide)).1⟩

end GCS
